import Mathlib

/-!
Shallow embedding of the InstaReels engagement engine
(src/engager.py, src/database.py, src/analyzer.py, src/main.py)
together with proofs about its quota, dedup and session-control behaviour.

Modelling conventions:
* one calendar day is modelled (every date filter in the SQL queries selects
  "today", so a single day is the faithful projection of the per-day state);
* the SQLite tables become Lean lists: `engagement_log` is append-only,
  `reels_analyzed` is an upsert-by-id list, `friend_shares` is a keyed
  (username, count) list;
* the Instagram client is an oracle: each live call either returns a boolean
  or raises, exactly the outcomes `engager.py` distinguishes;
* `humor_score` (a SQL REAL / Python float) is modelled as `ℚ`.
-/

namespace InstaReels

/-- One row of the `engagement_log` table (database.py, `log_engagement`).
Field defaults mirror the Python keyword defaults. -/
structure EngagementRecord where
  reel_id : String
  action_type : String
  friend_username : Option String := none
  comment_text : Option String := none
  success : Bool := true
  error_message : Option String := none
  deriving DecidableEq

/-- One row of the `reels_analyzed` table (database.py, `save_reel_analysis`). -/
structure ReelRow where
  reel_id : String
  reel_code : String
  username : String
  caption : String
  humor_score : ℚ
  humor_category : String
  humor_explanation : String
  transcript : String
  action_taken : String
  thumbnail_url : Option String := none
  deriving DecidableEq

/-- The durable store: the three tables the claims are about
(`daily_stats` is a derived rollup and not needed by any claim). -/
structure DB where
  reels_analyzed : List ReelRow := []
  engagement_log : List EngagementRecord := []
  friend_shares : List (String × ℕ) := []
  deriving DecidableEq

/-- `INSERT INTO engagement_log ...` (database.py, `log_engagement`):
append-only insert. -/
def DB.log_engagement (db : DB) (r : EngagementRecord) : DB :=
  { db with engagement_log := db.engagement_log ++ [r] }

/-- Number of successful records of one action type in a log slice:
the `SELECT COUNT(*) ... WHERE action_type = ? AND success = 1` body of
`get_daily_engagement_counts`. -/
def successCount (l : List EngagementRecord) (ty : String) : ℕ :=
  (l.filter (fun r => r.action_type == ty && r.success)).length

/-- database.py `get_daily_engagement_counts`, for one action kind
(the single modelled day is "today"). -/
def DB.get_daily_engagement_count (db : DB) (ty : String) : ℕ :=
  successCount db.engagement_log ty

/-- First-match lookup on the keyed (username, count) list; rows are unique by
username in SQLite (`UNIQUE(friend_username, date)`), the list mirrors that. -/
def lookupCount : List (String × ℕ) → String → ℕ
  | [], _ => 0
  | (v, n) :: rest, u => if v = u then n else lookupCount rest u

/-- database.py `get_friend_share_count_today` (0 when no row exists). -/
def DB.get_friend_share_count_today (db : DB) (u : String) : ℕ :=
  lookupCount db.friend_shares u

/-- The `INSERT ... ON CONFLICT DO UPDATE SET share_count = share_count + 1`
upsert of `increment_friend_share_count`. -/
def incrShares : List (String × ℕ) → String → List (String × ℕ)
  | [], u => [(u, 1)]
  | (v, n) :: rest, u =>
      if v = u then (v, n + 1) :: rest else (v, n) :: incrShares rest u

/-- database.py `increment_friend_share_count`. -/
def DB.increment_friend_share_count (db : DB) (u : String) : DB :=
  { db with friend_shares := incrShares db.friend_shares u }

/-- database.py `reel_already_analyzed`: `SELECT 1 FROM reels_analyzed WHERE
reel_id = ?` is non-empty. -/
def DB.reel_already_analyzed (db : DB) (id : String) : Bool :=
  db.reels_analyzed.any (fun r => r.reel_id == id)

/-- database.py `save_reel_analysis`: `INSERT OR REPLACE` keyed by `reel_id`
(the conflicting row is deleted and the new row inserted). -/
def DB.save_reel_analysis (db : DB) (row : ReelRow) : DB :=
  { db with reels_analyzed :=
      (db.reels_analyzed.filter (fun r => !(r.reel_id == row.reel_id))) ++ [row] }

/-- Python `str.lower()` (ASCII case folding suffices for the claims). -/
def strLower (s : String) : String := ⟨s.data.map Char.toLower⟩

/-- Python `str.upper()`. -/
def strUpper (s : String) : String := ⟨s.data.map Char.toUpper⟩

/-- Python substring test `needle in hay`: contiguous substring containment. -/
def strContains (needle hay : String) : Bool :=
  decide (needle.data <:+: hay.data)

/-- engager.py `FriendProfile`; `interests` are stored already lower-cased,
as the constructor does. -/
structure FriendProfile where
  username : String
  interests : List String
  max_shares_per_day : ℕ
  deriving DecidableEq

/-- engager.py `FriendProfile.matches_category`: symmetric substring
containment between each (lower-cased) interest and the lower-cased category. -/
def FriendProfile.matches_category (f : FriendProfile) (category : String) : Bool :=
  let category_lower := strLower category
  f.interests.any (fun interest =>
    strContains interest category_lower || strContains category_lower interest)

/-- engager.py `_sync_friends_to_db`: when the freshly loaded friend list is
non-empty, delete every `friend_shares` row whose username is not in it;
when it is empty the method returns without touching the table. -/
def sync_friends_to_db (db : DB) (friends : List FriendProfile) : DB :=
  let current_usernames := friends.map FriendProfile.username
  if current_usernames.isEmpty then db
  else
    { db with friend_shares :=
        db.friend_shares.filter (fun p => decide (p.1 ∈ current_usernames)) }

/-- The threshold/cap fields `Engager.__init__` extracts from the config. -/
structure EngagerConfig where
  humor_threshold : ℚ := 7
  comment_threshold : ℚ := 8
  max_likes_per_day : ℕ := 100
  max_comments_per_day : ℕ := 20
  max_shares_per_day : ℕ := 10
  deriving DecidableEq

/-- Outcome of one live Instagram client call: a boolean result or a raised
exception (the two cases `_do_like`/`_do_comment`/`_do_share` distinguish). -/
inductive CallResult where
  | ok (success : Bool)
  | exn (msg : String)
  deriving DecidableEq

/-- Environment oracle fixing what each Instagram call would do for one reel. -/
structure Oracle where
  likeRes : CallResult := .ok true
  commentRes : CallResult := .ok true
  shareRes : String → CallResult := fun _ => .ok true

/-- The oracle of a live run on which every platform action succeeds. -/
def oracleOk : Oracle :=
  { likeRes := .ok true, commentRes := .ok true, shareRes := fun _ => .ok true }

/-- Trace entry: one real Instagram client call. -/
inductive PlatformCall where
  | likeCall (reelId : String)
  | commentCall (reelId text : String)
  | shareCall (reelId username code : String)
  deriving DecidableEq

/-- engager.py `_can_like`. -/
def can_like (cfg : EngagerConfig) (db : DB) : Bool :=
  decide (db.get_daily_engagement_count "like" < cfg.max_likes_per_day)

/-- engager.py `_can_comment`. -/
def can_comment (cfg : EngagerConfig) (db : DB) : Bool :=
  decide (db.get_daily_engagement_count "comment" < cfg.max_comments_per_day)

/-- engager.py `_can_share`. -/
def can_share (cfg : EngagerConfig) (db : DB) : Bool :=
  decide (db.get_daily_engagement_count "share" < cfg.max_shares_per_day)

/-- engager.py `_can_share_to_friend`. -/
def can_share_to_friend (db : DB) (friend : FriendProfile) : Bool :=
  decide (db.get_friend_share_count_today friend.username < friend.max_shares_per_day)

/-- engager.py `_do_like`: returns (success, updated store, platform calls
made). Dry run logs a success record without calling the platform; live logs
the boolean result, or a failure record carrying the exception text. -/
def do_like (dry_run : Bool) (res : CallResult) (db : DB) (reel_id : String) :
    Bool × DB × List PlatformCall :=
  if dry_run then
    (true, db.log_engagement { reel_id := reel_id, action_type := "like" }, [])
  else
    match res with
    | .ok b =>
        (b, db.log_engagement { reel_id := reel_id, action_type := "like", success := b },
          [.likeCall reel_id])
    | .exn m =>
        (false,
          db.log_engagement
            { reel_id := reel_id, action_type := "like", success := false,
              error_message := some m },
          [.likeCall reel_id])

/-- engager.py `_do_comment`. -/
def do_comment (dry_run : Bool) (res : CallResult) (db : DB)
    (reel_id comment_text : String) : Bool × DB × List PlatformCall :=
  if dry_run then
    (true,
      db.log_engagement
        { reel_id := reel_id, action_type := "comment",
          comment_text := some comment_text },
      [])
  else
    match res with
    | .ok b =>
        (b,
          db.log_engagement
            { reel_id := reel_id, action_type := "comment",
              comment_text := some comment_text, success := b },
          [.commentCall reel_id comment_text])
    | .exn m =>
        (false,
          db.log_engagement
            { reel_id := reel_id, action_type := "comment",
              comment_text := some comment_text, success := false,
              error_message := some m },
          [.commentCall reel_id comment_text])

/-- engager.py `_do_share`: the per-friend counter is incremented only when
the share succeeds (always in dry run, which treats the share as successful). -/
def do_share (dry_run : Bool) (res : CallResult) (db : DB) (reel_id : String)
    (friend : FriendProfile) (reel_code : String) : Bool × DB × List PlatformCall :=
  if dry_run then
    (true,
      (db.log_engagement
        { reel_id := reel_id, action_type := "share",
          friend_username := some friend.username }).increment_friend_share_count
        friend.username,
      [])
  else
    match res with
    | .ok b =>
        let db1 := db.log_engagement
          { reel_id := reel_id, action_type := "share",
            friend_username := some friend.username, success := b }
        (b, if b then db1.increment_friend_share_count friend.username else db1,
          [.shareCall reel_id friend.username reel_code])
    | .exn m =>
        (false,
          db.log_engagement
            { reel_id := reel_id, action_type := "share",
              friend_username := some friend.username, success := false,
              error_message := some m },
          [.shareCall reel_id friend.username reel_code])

/-- engager.py `_find_matching_friends`. -/
def find_matching_friends (friends : List FriendProfile) (humor_category : String) :
    List FriendProfile :=
  friends.filter (fun f => f.matches_category humor_category)

/-- The `for friend in matching_friends` loop of `process_engagement`:
attempt a share to each friend whose personal cap allows; stop (break) after
the first successful share; a failed or erroring attempt leaves the loop
running on the remaining friends. -/
def share_scan (dry_run : Bool) (oracle : Oracle) (reel_id reel_code : String) :
    List FriendProfile → DB → List String × DB × List PlatformCall
  | [], db => ([], db, [])
  | friend :: rest, db =>
      if can_share_to_friend db friend then
        let r := do_share dry_run (oracle.shareRes friend.username) db reel_id friend reel_code
        if r.1 then
          (["share:" ++ friend.username], r.2.1, r.2.2)
        else
          let r' := share_scan dry_run oracle reel_id reel_code rest r.2.1
          (r'.1, r'.2.1, r.2.2 ++ r'.2.2)
      else share_scan dry_run oracle reel_id reel_code rest db

/-- Result of one decision pass: actions taken, updated store, client calls. -/
structure EngageResult where
  actions : List String
  db : DB
  calls : List PlatformCall

/-- The like block of `process_engagement` (engager.py lines 130-137). -/
def like_phase (cfg : EngagerConfig) (dry_run : Bool) (oracle : Oracle) (db : DB)
    (reel_id : String) (humor_score : ℚ) : List String × DB × List PlatformCall :=
  if cfg.humor_threshold ≤ humor_score then
    if can_like cfg db then
      let r := do_like dry_run oracle.likeRes db reel_id
      (if r.1 then ["like"] else [], r.2.1, r.2.2)
    else ([], db, [])
  else ([], db, [])

/-- The comment block of `process_engagement` (engager.py lines 139-146). -/
def comment_phase (cfg : EngagerConfig) (dry_run : Bool) (oracle : Oracle) (db : DB)
    (reel_id : String) (humor_score : ℚ) (suggested_comment : String) :
    List String × DB × List PlatformCall :=
  if cfg.comment_threshold ≤ humor_score ∧ suggested_comment ≠ "" then
    if can_comment cfg db then
      let r := do_comment dry_run oracle.commentRes db reel_id suggested_comment
      (if r.1 then ["comment"] else [], r.2.1, r.2.2)
    else ([], db, [])
  else ([], db, [])

/-- The share block of `process_engagement` (engager.py lines 148-157). -/
def share_phase (cfg : EngagerConfig) (friends : List FriendProfile)
    (dry_run : Bool) (oracle : Oracle) (db : DB)
    (reel_id humor_category reel_code : String) :
    List String × DB × List PlatformCall :=
  if can_share cfg db then
    share_scan dry_run oracle reel_id reel_code
      (find_matching_friends friends humor_category) db
  else ([], db, [])

/-- engager.py `Engager.process_engagement`: evaluate the like, comment and
share blocks in that fixed order, threading the store through, and return
the actions taken in emission order. -/
def process_engagement (cfg : EngagerConfig) (friends : List FriendProfile)
    (dry_run : Bool) (oracle : Oracle) (db : DB) (reel_id : String)
    (humor_score : ℚ) (humor_category : String) (suggested_comment : String)
    (reel_code : String) : EngageResult :=
  let p1 := like_phase cfg dry_run oracle db reel_id humor_score
  let p2 := comment_phase cfg dry_run oracle p1.2.1 reel_id humor_score suggested_comment
  let p3 := share_phase cfg friends dry_run oracle p2.2.1 reel_id humor_category reel_code
  ⟨p1.1 ++ p2.1 ++ p3.1, p3.2.1, p1.2.2 ++ p2.2.2 ++ p3.2.2⟩

/-- The records a decision pass appended to the engagement log, given the
store it started from. -/
def newRecords (db : DB) (r : EngageResult) : List EngagementRecord :=
  r.db.engagement_log.drop db.engagement_log.length

/-! ## Content analyzer (analyzer.py `ContentAnalyzer.analyze_reel`) -/

/-- What the analysis run produces: the dict `analyze_reel` returns. -/
structure AnalysisResult where
  humor_score : ℚ
  humor_category : String
  explanation : String
  suggested_comment : String
  transcript : String
  deriving DecidableEq

/-- The neutral defaults `analyze_reel` initialises `result` with. -/
def neutralResult : AnalysisResult :=
  { humor_score := 0, humor_category := "unknown", explanation := "",
    suggested_comment := "", transcript := "" }

/-- The parsed JSON value of the suggested_comment field: either a string,
on which Python `.upper()` succeeds, or a non-string value — carried
opaquely as the text it is stored under — on which `.upper()` raises
`AttributeError` AFTER the field assignments have already happened. -/
inductive SuggestedValue where
  | str (s : String)
  | nonString (stored : String)
  deriving DecidableEq

/-- The value as it sits in `result["suggested_comment"]` right after the
assignment from the parsed dict. -/
def SuggestedValue.stored : SuggestedValue → String
  | .str s => s
  | .nonString v => v

/-- What the OpenAI call plus response parsing produced: an exception during
the call, no JSON object found in the response text, a JSON decoding error,
or the parsed fields (with the dict-`get` defaults already applied). In the
parsed case, `humor_score` is `some q` when `float(...)` coerces the value
to `q` and `none` when the coercion raises — which in the source happens
BEFORE any result field has been assigned; the suggested comment keeps its
JSON type, because a non-string one makes `.upper()` raise AFTER the four
field assignments. -/
inductive ApiResponse where
  | apiError (msg : String)
  | noJson
  | badJson (msg : String)
  | parsed (humor_score : Option ℚ) (humor_category explanation : String)
      (suggested_comment : SuggestedValue)
  deriving DecidableEq

/-- `ApiResponse` cases in which analysis failed (an exception was raised
somewhere, or no valid JSON was parsed): everything except a parse with a
coercible score and a string suggested comment. -/
def isFailureResponse : ApiResponse → Bool
  | .parsed (some _) _ _ (.str _) => false
  | _ => true

/-- `ApiResponse` cases whose failure occurs before any parsed field is
assigned: an exception in or before the call, no JSON found, a JSON decode
error, or the `float(...)` coercion of the score raising (the first
statement after a successful parse). -/
def failsBeforeAssignment : ApiResponse → Bool
  | .apiError _ => true
  | .noJson => true
  | .badJson _ => true
  | .parsed none _ _ _ => true
  | .parsed (some _) _ _ _ => false

/-- Environment of one `analyze_reel` call: whether frame extraction yielded
frames, what `transcribe_audio` returned (`""` when Whisper is unavailable or
failed), and what the OpenAI call/parse produced. -/
structure AnalyzeEnv where
  framesOk : Bool
  transcript : String
  response : ApiResponse
  deriving DecidableEq

/-- analyzer.py `analyze_reel`: start from the neutral result; return it
unchanged when no frames could be extracted; otherwise store the transcript,
then run the parse pipeline inside the try block. An exception in the call,
a missing JSON object, a JSON decode error, or the score coercion raising
all leave the neutral fields in place (the transcript assignment has already
happened). When the coercion succeeds, the four fields are assigned from the
parsed dict in order; then `.upper()` is evaluated on the suggested comment:
on a string it succeeds, and a result of "SKIP" blanks the field, while on a
non-string it raises `AttributeError`, which the generic handler catches —
the already-assigned parsed fields are then kept in the returned result. -/
def analyze_reel (env : AnalyzeEnv) : AnalysisResult :=
  if !env.framesOk then neutralResult
  else
    let r1 := { neutralResult with transcript := env.transcript }
    match env.response with
    | .apiError _ => r1
    | .noJson => r1
    | .badJson _ => r1
    | .parsed score cat expl sugg =>
        match score with
        | none => r1
        | some q =>
            let r2 := { r1 with
              humor_score := q, humor_category := cat, explanation := expl,
              suggested_comment := sugg.stored }
            match sugg with
            | .str s =>
                { r2 with suggested_comment := if strUpper s == "SKIP" then "" else s }
            | .nonString _ => r2

/-! ## Session loop (main.py `run_session`) -/

/-- One candidate item of the feed, together with the environment behaviour
for it: whether its download succeeds, what `analyze_reel` returns for it,
and the platform-call oracle for its engagement pass. -/
structure ReelInput where
  pk : String
  username : String := ""
  caption : String := ""
  code : String := ""
  thumbnail_url : Option String := none
  downloadOk : Bool := true
  analysis : AnalysisResult
  oracle : Oracle := {}

/-- Session-visible state: the store plus the controller's counters and, as
observer traces, the analyzer invocations, the analysis upserts, the real
platform calls made, and the cumulative number of successful actions. -/
structure SessionState where
  db : DB
  actions_since_cooldown : ℕ := 0
  cooldowns : ℕ := 0
  invocations : List String := []
  upserts : List String := []
  calls : List PlatformCall := []
  totalActions : ℕ := 0
  deriving DecidableEq

/-- The `if not analyze_only: actions = engager.process_engagement(...)` part
of the loop body: in analyze-only mode the engagement pass is skipped
entirely and no actions are taken. -/
def engage_step (cfg : EngagerConfig) (friends : List FriendProfile)
    (dry_run analyze_only : Bool) (db : DB) (reel : ReelInput) : EngageResult :=
  if analyze_only then ⟨[], db, []⟩
  else
    process_engagement cfg friends dry_run reel.oracle db reel.pk
      reel.analysis.humor_score reel.analysis.humor_category
      reel.analysis.suggested_comment reel.code

/-- One iteration of the `for reel_data in instagram.get_reels_feed(...)`
body of main.py `run_session`: skip items already in the store, skip failed
downloads, otherwise analyze, engage (unless analyze-only), persist the
analysis with the action summary, and pause once the running action counter
reaches the cooldown trigger, resetting it to zero. -/
def session_step (cfg : EngagerConfig) (friends : List FriendProfile)
    (dry_run analyze_only : Bool) (cooldown_after : ℕ)
    (s : SessionState) (reel : ReelInput) : SessionState :=
  if s.db.reel_already_analyzed reel.pk then s
  else if !reel.downloadOk then s
  else
    let analysis := reel.analysis
    let er : EngageResult := engage_step cfg friends dry_run analyze_only s.db reel
    let counter :=
      if analyze_only then s.actions_since_cooldown
      else if er.actions.isEmpty then s.actions_since_cooldown
      else s.actions_since_cooldown + er.actions.length
    let action_str :=
      if er.actions.isEmpty then "none" else String.intercalate "," er.actions
    let db2 := er.db.save_reel_analysis
      { reel_id := reel.pk, reel_code := reel.code, username := reel.username,
        caption := reel.caption, humor_score := analysis.humor_score,
        humor_category := analysis.humor_category,
        humor_explanation := analysis.explanation,
        transcript := analysis.transcript, action_taken := action_str,
        thumbnail_url := reel.thumbnail_url }
    { db := db2,
      actions_since_cooldown := if cooldown_after ≤ counter then 0 else counter,
      cooldowns := if cooldown_after ≤ counter then s.cooldowns + 1 else s.cooldowns,
      invocations := s.invocations ++ [reel.pk],
      upserts := s.upserts ++ [reel.pk],
      calls := s.calls ++ er.calls,
      totalActions := s.totalActions + er.actions.length }

/-- main.py `run_session` over the items actually processed this session:
the `Engager` constructor first syncs the friend list against the store,
then the feed loop runs `session_step` over each candidate item. -/
def run_session (cfg : EngagerConfig) (friends : List FriendProfile)
    (dry_run analyze_only : Bool) (cooldown_after : ℕ)
    (db0 : DB) (reels : List ReelInput) : SessionState :=
  reels.foldl (session_step cfg friends dry_run analyze_only cooldown_after)
    { db := sync_friends_to_db db0 friends }

/-- A session state with its platform-call trace erased: what remains is
exactly the data-model effect of the session (stored records, counters,
analysis rows, cooldown bookkeeping). -/
def stripCalls (s : SessionState) : SessionState := { s with calls := [] }

/-! ## Concrete instances used to evaluate the model -/

/-- The default configuration (`config.json` defaults). -/
def cfgEx : EngagerConfig := {}

/-- A recipient interested in "funny" content, personal cap 3. -/
def alice : FriendProfile := ⟨"alice", ["funny"], 3⟩

/-- A second recipient with the same interests and cap. -/
def bob : FriendProfile := ⟨"bob", ["funny"], 3⟩

/-- A live-run oracle on which sharing to alice fails (the client returns
`False`) while every other call succeeds. -/
def oracleShareFail : Oracle :=
  { likeRes := .ok true, commentRes := .ok true,
    shareRes := fun u => if u = "alice" then .ok false else .ok true }

/-- One live decision pass over a low-scoring reel of category "funny",
against an empty store, with both alice and bob eligible: the share to
alice fails, so the loop moves on and shares to bob. -/
def c1pass : EngageResult :=
  process_engagement cfgEx [alice, bob] false oracleShareFail {} "reel1" 0 "funny" "" "c1"

/-- A feed item whose analysis scored 8 in category "funny" with a suggested
comment, so a dry run takes all three actions on it. -/
def reelHot1 : ReelInput := { pk := "r1", analysis := ⟨8, "funny", "", "nice", ""⟩ }

/-- A second such item with a distinct identifier. -/
def reelHot2 : ReelInput := { pk := "r2", analysis := ⟨8, "funny", "", "nice", ""⟩ }

/-- A dry-run session over the two hot items with cooldown trigger 2:
each item contributes three successful actions at once. -/
def c9session : SessionState :=
  run_session cfgEx [alice] true false 2 {} [reelHot1, reelHot2]

/-- An analysis environment in which frames extract, transcription returns
"hello", and then the OpenAI call raises. -/
def c8env : AnalyzeEnv := ⟨true, "hello", .apiError "boom"⟩

/-- An analysis environment whose response parses with score 9 but whose
suggested_comment is a non-string JSON value (stored as "7"), so `.upper()`
raises after the four field assignments. -/
def c8envPartial : AnalyzeEnv :=
  ⟨true, "", .parsed (some 9) "funny" "e" (.nonString "7")⟩

/-- A store holding a per-recipient counter row for a recipient ("bob")
who is absent from the freshly loaded recipient list. -/
def c7db : DB := { friend_shares := [("bob", 5)] }

/-! ## Basic lemmas about the store operations -/

theorem successCount_append (l₁ l₂ : List EngagementRecord) (ty : String) :
    successCount (l₁ ++ l₂) ty = successCount l₁ ty + successCount l₂ ty := by
  simp [successCount, List.filter_append]

theorem successCount_le_length (l : List EngagementRecord) (ty : String) :
    successCount l ty ≤ l.length :=
  List.length_filter_le _ _

theorem successCount_eq_zero (l : List EngagementRecord) (ty ty' : String)
    (h : ∀ r ∈ l, r.action_type = ty) (hne : ty ≠ ty') :
    successCount l ty' = 0 := by
  simp only [successCount, List.length_eq_zero, List.filter_eq_nil_iff]
  intro r hr
  simp [h r hr, hne]

theorem lookupCount_incrShares (l : List (String × ℕ)) (u v : String) :
    lookupCount (incrShares l u) v =
      if v = u then lookupCount l v + 1 else lookupCount l v := by
  induction l with
  | nil =>
      by_cases h : v = u
      · subst h; simp [incrShares, lookupCount]
      · have h' : ¬u = v := fun hn => h hn.symm
        simp [incrShares, lookupCount, h, h']
  | cons p rest ih =>
      obtain ⟨w, n⟩ := p
      by_cases hwu : w = u
      · subst hwu
        by_cases hvw : v = w
        · subst hvw; simp [incrShares, lookupCount]
        · have h' : ¬w = v := fun hn => hvw hn.symm
          simp [incrShares, lookupCount, hvw, h']
      · by_cases hvw : v = w
        · have h' : ¬v = u := fun hn => hwu (hvw.symm.trans hn)
          have hw : w = v := hvw.symm
          simp [incrShares, hwu, lookupCount, hw, h']
        · have h' : ¬w = v := fun hn => hvw hn.symm
          simp [incrShares, hwu, lookupCount, h', ih]

theorem lookupCount_filter_key (l : List (String × ℕ)) (names : List String) (u : String) :
    lookupCount (l.filter (fun q => decide (q.1 ∈ names))) u =
      if u ∈ names then lookupCount l u else 0 := by
  induction l with
  | nil => by_cases h : u ∈ names <;> simp [lookupCount, h]
  | cons p rest ih =>
      obtain ⟨w, n⟩ := p
      by_cases hw : w ∈ names
      · by_cases hvw : w = u
        · subst hvw
          simp [List.filter, hw, lookupCount, ih]
        · have h' : ¬w = u := hvw
          simp [List.filter, hw, lookupCount, h', ih]
      · by_cases hvw : w = u
        · subst hvw
          simp [List.filter, hw, lookupCount, ih]
        · have h' : ¬w = u := hvw
          simp [List.filter, hw, lookupCount, h', ih]

theorem sync_engagement_log (db : DB) (friends : List FriendProfile) :
    (sync_friends_to_db db friends).engagement_log = db.engagement_log := by
  simp only [sync_friends_to_db]
  split <;> rfl

theorem sync_reels_analyzed (db : DB) (friends : List FriendProfile) :
    (sync_friends_to_db db friends).reels_analyzed = db.reels_analyzed := by
  simp only [sync_friends_to_db]
  split <;> rfl

theorem sync_share_count_le (db : DB) (friends : List FriendProfile) (u : String) :
    (sync_friends_to_db db friends).get_friend_share_count_today u ≤
      db.get_friend_share_count_today u := by
  simp only [sync_friends_to_db]
  split
  · exact le_rfl
  · simp only [DB.get_friend_share_count_today, lookupCount_filter_key]
    split <;> simp

theorem reel_already_analyzed_iff (db : DB) (id : String) :
    db.reel_already_analyzed id = true ↔ ∃ r ∈ db.reels_analyzed, r.reel_id = id := by
  simp [DB.reel_already_analyzed, List.any_eq_true]

theorem save_analyzed_self (db : DB) (row : ReelRow) :
    (db.save_reel_analysis row).reel_already_analyzed row.reel_id = true := by
  rw [reel_already_analyzed_iff]
  exact ⟨row, by simp [DB.save_reel_analysis], rfl⟩

theorem save_analyzed_other (db : DB) (row : ReelRow) (id : String)
    (h : id ≠ row.reel_id) :
    (db.save_reel_analysis row).reel_already_analyzed id = db.reel_already_analyzed id := by
  rw [Bool.eq_iff_iff, reel_already_analyzed_iff, reel_already_analyzed_iff]
  constructor
  · rintro ⟨r, hr, hrid⟩
    simp only [DB.save_reel_analysis, List.mem_append, List.mem_filter,
      List.mem_singleton] at hr
    rcases hr with ⟨hr, -⟩ | rfl
    · exact ⟨r, hr, hrid⟩
    · exact absurd hrid.symm h
  · rintro ⟨r, hr, hrid⟩
    refine ⟨r, ?_, hrid⟩
    simp only [DB.save_reel_analysis, List.mem_append, List.mem_filter,
      List.mem_singleton]
    exact Or.inl ⟨hr, by simp [hrid, h]⟩

/-! ## Characterisation of the do-actions -/

theorem do_like_spec (dr : Bool) (res : CallResult) (db : DB) (id : String) :
    ∃ rec : EngagementRecord,
      (do_like dr res db id).2.1 =
        { db with engagement_log := db.engagement_log ++ [rec] } ∧
      rec.action_type = "like" ∧ rec.reel_id = id ∧
      rec.success = (do_like dr res db id).1 := by
  cases dr <;> cases res <;> exact ⟨_, rfl, rfl, rfl, rfl⟩

theorem do_comment_spec (dr : Bool) (res : CallResult) (db : DB) (id text : String) :
    ∃ rec : EngagementRecord,
      (do_comment dr res db id text).2.1 =
        { db with engagement_log := db.engagement_log ++ [rec] } ∧
      rec.action_type = "comment" ∧ rec.reel_id = id ∧
      rec.success = (do_comment dr res db id text).1 := by
  cases dr <;> cases res <;> exact ⟨_, rfl, rfl, rfl, rfl⟩

theorem do_share_spec (dr : Bool) (res : CallResult) (db : DB) (id : String)
    (f : FriendProfile) (code : String) :
    ∃ rec : EngagementRecord,
      (do_share dr res db id f code).2.1 =
        (if (do_share dr res db id f code).1 then
          ({ db with engagement_log := db.engagement_log ++ [rec] } :
            DB).increment_friend_share_count f.username
        else { db with engagement_log := db.engagement_log ++ [rec] }) ∧
      rec.action_type = "share" ∧ rec.reel_id = id ∧
      rec.friend_username = some f.username ∧
      rec.success = (do_share dr res db id f code).1 := by
  cases dr with
  | false =>
      cases res with
      | ok b => cases b <;> exact ⟨_, rfl, rfl, rfl, rfl, rfl⟩
      | exn m => exact ⟨_, rfl, rfl, rfl, rfl, rfl⟩
  | true => exact ⟨_, rfl, rfl, rfl, rfl, rfl⟩

theorem do_share_no_incr_on_failure (dr : Bool) (res : CallResult) (db : DB)
    (id : String) (f : FriendProfile) (code : String)
    (h : (do_share dr res db id f code).1 = false) :
    ((do_share dr res db id f code).2.1).friend_shares = db.friend_shares := by
  cases dr with
  | false =>
      cases res with
      | ok b => cases b <;> first | rfl | exact absurd h (by simp [do_share])
      | exn m => rfl
  | true => exact absurd h (by simp [do_share])

/-! ## Characterisation of the share loop and the three decision phases -/

theorem share_scan_spec (dr : Bool) (o : Oracle) (id code : String) :
    ∀ (L : List FriendProfile) (db : DB),
      ∃ recs : List EngagementRecord,
        (share_scan dr o id code L db).2.1.engagement_log =
          db.engagement_log ++ recs ∧
        (share_scan dr o id code L db).2.1.reels_analyzed = db.reels_analyzed ∧
        (∀ r ∈ recs, r.action_type = "share" ∧ r.reel_id = id) ∧
        successCount recs "share" ≤ 1 ∧
        (share_scan dr o id code L db).1.length ≤ 1 := by
  intro L
  induction L with
  | nil =>
      intro db
      exact ⟨[], by simp [share_scan], by simp [share_scan], by simp,
        by simp [successCount], by simp [share_scan]⟩
  | cons f rest ih =>
      intro db
      by_cases hc : can_share_to_friend db f = true
      · obtain ⟨rec, hdb, hty, hrid, hfu, hsucc⟩ :=
          do_share_spec dr (o.shareRes f.username) db id f code
        by_cases hs : (do_share dr (o.shareRes f.username) db id f code).1 = true
        · refine ⟨[rec], ?_, ?_, ?_, ?_, ?_⟩
          · simp [share_scan, hc, hs, hdb, hs, DB.increment_friend_share_count]
          · simp [share_scan, hc, hs, hdb, DB.increment_friend_share_count]
          · simp [hty, hrid]
          · exact (successCount_le_length [rec] "share").trans (by simp)
          · simp [share_scan, hc, hs]
        · have hs' : (do_share dr (o.shareRes f.username) db id f code).1 = false :=
            Bool.eq_false_iff.mpr hs
          obtain ⟨recs', h1, h2, h3, h4, h5⟩ :=
            ih ((do_share dr (o.shareRes f.username) db id f code).2.1)
          have hdb' : (do_share dr (o.shareRes f.username) db id f code).2.1 =
              { db with engagement_log := db.engagement_log ++ [rec] } := by
            rw [hdb, hs']; simp
          refine ⟨rec :: recs', ?_, ?_, ?_, ?_, ?_⟩
          · simp only [share_scan, hc, if_true, hs', Bool.false_eq_true, if_false]
            rw [h1, hdb']
            simp
          · simp only [share_scan, hc, if_true, hs', Bool.false_eq_true, if_false]
            rw [h2, hdb']
          · intro r hr
            rcases List.mem_cons.mp hr with rfl | hr'
            · exact ⟨hty, hrid⟩
            · exact h3 r hr'
          · have : rec.success = false := hsucc.trans hs'
            simpa [successCount, List.filter, this] using h4
          · simp only [share_scan, hc, if_true, hs', Bool.false_eq_true, if_false]
            exact h5
      · obtain ⟨recs, h1, h2, h3, h4, h5⟩ := ih db
        have hc' : can_share_to_friend db f = false := Bool.eq_false_iff.mpr hc
        exact ⟨recs, by simpa [share_scan, hc'] using h1,
          by simpa [share_scan, hc'] using h2, h3, h4,
          by simpa [share_scan, hc'] using h5⟩

theorem like_phase_spec (cfg : EngagerConfig) (dr : Bool) (o : Oracle) (db : DB)
    (id : String) (score : ℚ) :
    ∃ recs : List EngagementRecord,
      (like_phase cfg dr o db id score).2.1 =
        { db with engagement_log := db.engagement_log ++ recs } ∧
      (∀ r ∈ recs, r.action_type = "like" ∧ r.reel_id = id) ∧
      recs.length ≤ 1 ∧
      (recs ≠ [] ↔ (cfg.humor_threshold ≤ score ∧ can_like cfg db = true)) := by
  by_cases h1 : cfg.humor_threshold ≤ score
  · by_cases h2 : can_like cfg db = true
    · obtain ⟨rec, hdb, hty, hrid, -⟩ := do_like_spec dr o.likeRes db id
      refine ⟨[rec], ?_, ?_, ?_, ?_⟩
      · simpa [like_phase, h1, h2] using hdb
      · simp [hty, hrid]
      · simp
      · simp [h1, h2]
    · have h2' : can_like cfg db = false := Bool.eq_false_iff.mpr h2
      exact ⟨[], by simp [like_phase, h1, h2'], by simp, by simp, by simp [h2']⟩
  · exact ⟨[], by simp [like_phase, h1], by simp, by simp, by simp [h1]⟩

theorem comment_phase_spec (cfg : EngagerConfig) (dr : Bool) (o : Oracle) (db : DB)
    (id : String) (score : ℚ) (sugg : String) :
    ∃ recs : List EngagementRecord,
      (comment_phase cfg dr o db id score sugg).2.1 =
        { db with engagement_log := db.engagement_log ++ recs } ∧
      (∀ r ∈ recs, r.action_type = "comment" ∧ r.reel_id = id) ∧
      recs.length ≤ 1 ∧
      (recs ≠ [] ↔
        (cfg.comment_threshold ≤ score ∧ sugg ≠ "" ∧ can_comment cfg db = true)) := by
  by_cases h1 : cfg.comment_threshold ≤ score ∧ sugg ≠ ""
  · by_cases h2 : can_comment cfg db = true
    · obtain ⟨rec, hdb, hty, hrid, -⟩ := do_comment_spec dr o.commentRes db id sugg
      refine ⟨[rec], ?_, ?_, ?_, ?_⟩
      · simpa [comment_phase, h1, h2] using hdb
      · simp [hty, hrid]
      · simp
      · simp [h1.1, h1.2, h2]
    · have h2' : can_comment cfg db = false := Bool.eq_false_iff.mpr h2
      refine ⟨[], by simp [comment_phase, h1, h2'], by simp, by simp, ?_⟩
      simp [h2']
  · refine ⟨[], by simp [comment_phase, h1], by simp, by simp, ?_⟩
    simp only [ne_eq, not_true_eq_false, false_iff]
    intro hcon
    exact h1 ⟨hcon.1, hcon.2.1⟩

theorem share_phase_spec (cfg : EngagerConfig) (friends : List FriendProfile)
    (dr : Bool) (o : Oracle) (db : DB) (id cat code : String) :
    ∃ recs : List EngagementRecord,
      (share_phase cfg friends dr o db id cat code).2.1.engagement_log =
        db.engagement_log ++ recs ∧
      (share_phase cfg friends dr o db id cat code).2.1.reels_analyzed =
        db.reels_analyzed ∧
      (∀ r ∈ recs, r.action_type = "share" ∧ r.reel_id = id) ∧
      successCount recs "share" ≤ 1 ∧
      (recs ≠ [] → can_share cfg db = true) := by
  by_cases h : can_share cfg db = true
  · obtain ⟨recs, h1, h2, h3, h4, -⟩ :=
      share_scan_spec dr o id code (find_matching_friends friends cat) db
    exact ⟨recs, by simpa [share_phase, h] using h1,
      by simpa [share_phase, h] using h2, h3, h4, fun _ => h⟩
  · have h' : can_share cfg db = false := Bool.eq_false_iff.mpr h
    exact ⟨[], by simp [share_phase, h'], by simp [share_phase, h'], by simp,
      by simp [successCount], fun hcon => absurd rfl hcon⟩

/-- The daily counts only read the engagement log, so appending records of
other action types leaves a kind's count unchanged. -/
theorem count_append_other (db : DB) (recs : List EngagementRecord)
    (ty ty' : String) (h : ∀ r ∈ recs, r.action_type = ty) (hne : ty ≠ ty') :
    (DB.get_daily_engagement_count
        { db with engagement_log := db.engagement_log ++ recs } ty') =
      db.get_daily_engagement_count ty' := by
  simp [DB.get_daily_engagement_count, successCount_append,
    successCount_eq_zero recs ty ty' h hne]

theorem save_engagement_log (db : DB) (row : ReelRow) :
    (db.save_reel_analysis row).engagement_log = db.engagement_log := rfl

theorem save_friend_shares (db : DB) (row : ReelRow) :
    (db.save_reel_analysis row).friend_shares = db.friend_shares := rfl

theorem count_append_zero (db : DB) (recs : List EngagementRecord) (ty' : String)
    (h : successCount recs ty' = 0) :
    (DB.get_daily_engagement_count
        { db with engagement_log := db.engagement_log ++ recs } ty') =
      db.get_daily_engagement_count ty' := by
  simp [DB.get_daily_engagement_count, successCount_append, h]

theorem can_comment_append_other (cfg : EngagerConfig) (db : DB)
    (recs : List EngagementRecord) (h : successCount recs "comment" = 0) :
    can_comment cfg { db with engagement_log := db.engagement_log ++ recs } =
      can_comment cfg db := by
  simp [can_comment, count_append_zero db recs "comment" h]

theorem can_share_append_other (cfg : EngagerConfig) (db : DB)
    (recs : List EngagementRecord) (h : successCount recs "share" = 0) :
    can_share cfg { db with engagement_log := db.engagement_log ++ recs } =
      can_share cfg db := by
  simp [can_share, count_append_zero db recs "share" h]

/-- Master decomposition of one decision pass: the pass appends a like
segment, then a comment segment, then a share segment to the engagement log
(and touches no analysis rows); each segment is homogeneous in action type,
references the processed item, and obeys the pass's gating conditions,
evaluated against the store the pass started from. -/
theorem process_engagement_decomp (cfg : EngagerConfig) (friends : List FriendProfile)
    (dr : Bool) (o : Oracle) (db : DB) (id : String) (score : ℚ)
    (cat sugg code : String) :
    ∃ A B C : List EngagementRecord,
      (process_engagement cfg friends dr o db id score cat sugg code).db.engagement_log
        = db.engagement_log ++ (A ++ B ++ C) ∧
      (process_engagement cfg friends dr o db id score cat sugg code).db.reels_analyzed
        = db.reels_analyzed ∧
      (∀ r ∈ A, r.action_type = "like" ∧ r.reel_id = id) ∧
      (∀ r ∈ B, r.action_type = "comment" ∧ r.reel_id = id) ∧
      (∀ r ∈ C, r.action_type = "share" ∧ r.reel_id = id) ∧
      A.length ≤ 1 ∧ B.length ≤ 1 ∧ successCount C "share" ≤ 1 ∧
      (A ≠ [] ↔ (cfg.humor_threshold ≤ score ∧ can_like cfg db = true)) ∧
      (B ≠ [] ↔ (cfg.comment_threshold ≤ score ∧ sugg ≠ "" ∧ can_comment cfg db = true)) ∧
      (C ≠ [] → can_share cfg db = true) := by
  obtain ⟨A, hA1, hA2, hA3, hA4⟩ := like_phase_spec cfg dr o db id score
  obtain ⟨B, hB1, hB2, hB3, hB4⟩ :=
    comment_phase_spec cfg dr o (like_phase cfg dr o db id score).2.1 id score sugg
  obtain ⟨C, hC1, hC2, hC3, hC4, hC5⟩ :=
    share_phase_spec cfg friends dr o
      (comment_phase cfg dr o (like_phase cfg dr o db id score).2.1 id score sugg).2.1
      id cat code
  have hlikeA : ∀ r ∈ A, r.action_type = "like" := fun r hr => (hA2 r hr).1
  have hcomB : ∀ r ∈ B, r.action_type = "comment" := fun r hr => (hB2 r hr).1
  have hdb2 :
      (comment_phase cfg dr o (like_phase cfg dr o db id score).2.1 id score sugg).2.1 =
        { db with engagement_log := db.engagement_log ++ (A ++ B) } := by
    rw [hB1, hA1]; simp
  have hcc : can_comment cfg (like_phase cfg dr o db id score).2.1 = can_comment cfg db := by
    rw [hA1]
    exact can_comment_append_other cfg db A
      (successCount_eq_zero A "like" "comment" hlikeA (by decide))
  have hcsAB : can_share cfg
      (comment_phase cfg dr o (like_phase cfg dr o db id score).2.1 id score sugg).2.1 =
      can_share cfg db := by
    rw [hdb2]
    refine can_share_append_other cfg db (A ++ B) ?_
    rw [successCount_append,
      successCount_eq_zero A "like" "share" hlikeA (by decide),
      successCount_eq_zero B "comment" "share" hcomB (by decide)]
  refine ⟨A, B, C, ?_, ?_, hA2, hB2, hC3, hA3, hB3, hC4, hA4, ?_, ?_⟩
  · show (share_phase cfg friends dr o _ id cat code).2.1.engagement_log = _
    rw [hC1, hdb2]
    simp
  · show (share_phase cfg friends dr o _ id cat code).2.1.reels_analyzed = _
    rw [hC2, hdb2]
  · rw [hB4, hA1, can_comment_append_other cfg db A
      (successCount_eq_zero A "like" "comment" hlikeA (by decide))]
  · intro hC
    rw [← hcsAB]
    exact hC5 hC

/-! ## Daily-cap preservation -/

theorem process_engagement_caps (cfg : EngagerConfig) (friends : List FriendProfile)
    (dr : Bool) (o : Oracle) (db : DB) (id : String) (score : ℚ)
    (cat sugg code : String)
    (hl : db.get_daily_engagement_count "like" ≤ cfg.max_likes_per_day)
    (hc : db.get_daily_engagement_count "comment" ≤ cfg.max_comments_per_day)
    (hs : db.get_daily_engagement_count "share" ≤ cfg.max_shares_per_day) :
    (process_engagement cfg friends dr o db id score cat sugg code).db.get_daily_engagement_count
        "like" ≤ cfg.max_likes_per_day ∧
    (process_engagement cfg friends dr o db id score cat sugg code).db.get_daily_engagement_count
        "comment" ≤ cfg.max_comments_per_day ∧
    (process_engagement cfg friends dr o db id score cat sugg code).db.get_daily_engagement_count
        "share" ≤ cfg.max_shares_per_day := by
  obtain ⟨A, B, C, hlog, -, hA, hB, hC, hAl, hBl, hCs, hAiff, hBiff, hCimp⟩ :=
    process_engagement_decomp cfg friends dr o db id score cat sugg code
  have hAty : ∀ r ∈ A, r.action_type = "like" := fun r hr => (hA r hr).1
  have hBty : ∀ r ∈ B, r.action_type = "comment" := fun r hr => (hB r hr).1
  have hCty : ∀ r ∈ C, r.action_type = "share" := fun r hr => (hC r hr).1
  have hcount : ∀ ty, (process_engagement cfg friends dr o db id score cat
      sugg code).db.get_daily_engagement_count ty =
      db.get_daily_engagement_count ty +
        (successCount A ty + successCount B ty + successCount C ty) := by
    intro ty
    simp [DB.get_daily_engagement_count, hlog, successCount_append, Nat.add_assoc]
  refine ⟨?_, ?_, ?_⟩
  · rw [hcount "like",
      successCount_eq_zero B "comment" "like" hBty (by decide),
      successCount_eq_zero C "share" "like" hCty (by decide)]
    rcases eq_or_ne A [] with rfl | hAne
    · simpa [successCount] using hl
    · have hlt : db.get_daily_engagement_count "like" < cfg.max_likes_per_day :=
        of_decide_eq_true (hAiff.mp hAne).2
      have : successCount A "like" ≤ 1 := (successCount_le_length A "like").trans hAl
      omega
  · rw [hcount "comment",
      successCount_eq_zero A "like" "comment" hAty (by decide),
      successCount_eq_zero C "share" "comment" hCty (by decide)]
    rcases eq_or_ne B [] with rfl | hBne
    · simpa [successCount] using hc
    · have hlt : db.get_daily_engagement_count "comment" < cfg.max_comments_per_day :=
        of_decide_eq_true (hBiff.mp hBne).2.2
      have : successCount B "comment" ≤ 1 := (successCount_le_length B "comment").trans hBl
      omega
  · rw [hcount "share",
      successCount_eq_zero A "like" "share" hAty (by decide),
      successCount_eq_zero B "comment" "share" hBty (by decide)]
    rcases eq_or_ne C [] with rfl | hCne
    · simpa [successCount] using hs
    · have hlt : db.get_daily_engagement_count "share" < cfg.max_shares_per_day :=
        of_decide_eq_true (hCimp hCne)
      omega

theorem engage_step_caps (cfg : EngagerConfig) (friends : List FriendProfile)
    (dr ao : Bool) (db : DB) (reel : ReelInput)
    (hl : db.get_daily_engagement_count "like" ≤ cfg.max_likes_per_day)
    (hc : db.get_daily_engagement_count "comment" ≤ cfg.max_comments_per_day)
    (hs : db.get_daily_engagement_count "share" ≤ cfg.max_shares_per_day) :
    (engage_step cfg friends dr ao db reel).db.get_daily_engagement_count
        "like" ≤ cfg.max_likes_per_day ∧
    (engage_step cfg friends dr ao db reel).db.get_daily_engagement_count
        "comment" ≤ cfg.max_comments_per_day ∧
    (engage_step cfg friends dr ao db reel).db.get_daily_engagement_count
        "share" ≤ cfg.max_shares_per_day := by
  cases ao with
  | true => exact ⟨hl, hc, hs⟩
  | false =>
      exact process_engagement_caps cfg friends dr reel.oracle db reel.pk
        reel.analysis.humor_score reel.analysis.humor_category
        reel.analysis.suggested_comment reel.code hl hc hs

theorem session_step_caps (cfg : EngagerConfig) (friends : List FriendProfile)
    (dr ao : Bool) (N : ℕ) (s : SessionState) (reel : ReelInput)
    (hl : s.db.get_daily_engagement_count "like" ≤ cfg.max_likes_per_day)
    (hc : s.db.get_daily_engagement_count "comment" ≤ cfg.max_comments_per_day)
    (hs : s.db.get_daily_engagement_count "share" ≤ cfg.max_shares_per_day) :
    (session_step cfg friends dr ao N s reel).db.get_daily_engagement_count
        "like" ≤ cfg.max_likes_per_day ∧
    (session_step cfg friends dr ao N s reel).db.get_daily_engagement_count
        "comment" ≤ cfg.max_comments_per_day ∧
    (session_step cfg friends dr ao N s reel).db.get_daily_engagement_count
        "share" ≤ cfg.max_shares_per_day := by
  have hpe := engage_step_caps cfg friends dr ao s.db reel hl hc hs
  unfold session_step
  split
  · exact ⟨hl, hc, hs⟩
  · split
    · exact ⟨hl, hc, hs⟩
    · simpa [DB.get_daily_engagement_count, save_engagement_log] using hpe

theorem run_session_caps (cfg : EngagerConfig) (friends : List FriendProfile)
    (dr ao : Bool) (N : ℕ) (reels : List ReelInput) (s : SessionState)
    (hl : s.db.get_daily_engagement_count "like" ≤ cfg.max_likes_per_day)
    (hc : s.db.get_daily_engagement_count "comment" ≤ cfg.max_comments_per_day)
    (hs : s.db.get_daily_engagement_count "share" ≤ cfg.max_shares_per_day) :
    (reels.foldl (session_step cfg friends dr ao N) s).db.get_daily_engagement_count
        "like" ≤ cfg.max_likes_per_day ∧
    (reels.foldl (session_step cfg friends dr ao N) s).db.get_daily_engagement_count
        "comment" ≤ cfg.max_comments_per_day ∧
    (reels.foldl (session_step cfg friends dr ao N) s).db.get_daily_engagement_count
        "share" ≤ cfg.max_shares_per_day := by
  induction reels generalizing s with
  | nil => exact ⟨hl, hc, hs⟩
  | cons reel rest ih =>
      obtain ⟨hl', hc', hs'⟩ := session_step_caps cfg friends dr ao N s reel hl hc hs
      exact ih _ hl' hc' hs'

/-! ## Per-recipient cap preservation -/

theorem share_scan_friend_bound (dr : Bool) (o : Oracle) (id code : String)
    (friends : List FriendProfile)
    (hinj : ∀ f ∈ friends, ∀ g ∈ friends, f.username = g.username → f = g) :
    ∀ (L : List FriendProfile), (∀ g ∈ L, g ∈ friends) →
      ∀ db : DB, (∀ f ∈ friends,
          db.get_friend_share_count_today f.username ≤ f.max_shares_per_day) →
        ∀ f ∈ friends,
          (share_scan dr o id code L db).2.1.get_friend_share_count_today f.username ≤
            f.max_shares_per_day := by
  intro L
  induction L with
  | nil => intro _ db hdb f hf; simpa [share_scan] using hdb f hf
  | cons g rest ih =>
      intro hL db hdb f hf
      have hg : g ∈ friends := hL g (List.mem_cons_self g rest)
      have hrest : ∀ x ∈ rest, x ∈ friends := fun x hx => hL x (List.mem_cons_of_mem g hx)
      by_cases hc : can_share_to_friend db g = true
      · obtain ⟨rec, hdbeq, -, -, -, -⟩ := do_share_spec dr (o.shareRes g.username) db id g code
        by_cases hsucc : (do_share dr (o.shareRes g.username) db id g code).1 = true
        · -- successful share: counter of g goes up by one, then the loop stops
          have hglt : db.get_friend_share_count_today g.username < g.max_shares_per_day :=
            of_decide_eq_true hc
          have hfin : (share_scan dr o id code (g :: rest) db).2.1 =
              (do_share dr (o.shareRes g.username) db id g code).2.1 := by
            simp [share_scan, hc, hsucc]
          rw [hfin, hdbeq, if_pos hsucc]
          simp only [DB.increment_friend_share_count, DB.get_friend_share_count_today,
            lookupCount_incrShares]
          by_cases hfg : f.username = g.username
          · have hfeq : f = g := hinj f hf g hg hfg
            subst hfeq
            simp only [if_pos hfg]
            exact hglt
          · simp only [if_neg hfg]
            exact hdb f hf
        · have hs' : (do_share dr (o.shareRes g.username) db id g code).1 = false :=
            Bool.eq_false_iff.mpr hsucc
          have hfin : (share_scan dr o id code (g :: rest) db).2.1 =
              (share_scan dr o id code rest
                (do_share dr (o.shareRes g.username) db id g code).2.1).2.1 := by
            simp [share_scan, hc, hs']
          have hdb' : ∀ x ∈ friends,
              ((do_share dr (o.shareRes g.username) db id g
                  code).2.1).get_friend_share_count_today x.username ≤
                x.max_shares_per_day := by
            intro x hx
            rw [hdbeq, if_neg (by simp [hs'])]
            exact hdb x hx
          rw [hfin]
          exact ih hrest _ hdb' f hf
      · have hc' : can_share_to_friend db g = false := Bool.eq_false_iff.mpr hc
        have hfin : (share_scan dr o id code (g :: rest) db).2.1 =
            (share_scan dr o id code rest db).2.1 := by
          simp [share_scan, hc']
        rw [hfin]
        exact ih hrest db hdb f hf

theorem process_engagement_friend_bound (cfg : EngagerConfig)
    (friends : List FriendProfile) (dr : Bool) (o : Oracle) (db : DB)
    (id : String) (score : ℚ) (cat sugg code : String)
    (hinj : ∀ f ∈ friends, ∀ g ∈ friends, f.username = g.username → f = g)
    (hdb : ∀ f ∈ friends,
      db.get_friend_share_count_today f.username ≤ f.max_shares_per_day) :
    ∀ f ∈ friends,
      (process_engagement cfg friends dr o db id score cat sugg
          code).db.get_friend_share_count_today f.username ≤
        f.max_shares_per_day := by
  obtain ⟨A, hA1, -, -, -⟩ := like_phase_spec cfg dr o db id score
  obtain ⟨B, hB1, -, -, -⟩ :=
    comment_phase_spec cfg dr o (like_phase cfg dr o db id score).2.1 id score sugg
  have hdb2eq :
      (comment_phase cfg dr o (like_phase cfg dr o db id score).2.1 id score sugg).2.1 =
        { db with engagement_log := db.engagement_log ++ (A ++ B) } := by
    rw [hB1, hA1]; simp
  intro f hf
  show (share_phase cfg friends dr o
      (comment_phase cfg dr o (like_phase cfg dr o db id score).2.1 id score
        sugg).2.1 id cat code).2.1.get_friend_share_count_today f.username ≤ _
  unfold share_phase
  split
  · refine share_scan_friend_bound dr o id code friends hinj
      (find_matching_friends friends cat)
      (fun g hg => (List.mem_filter.mp hg).1) _ ?_ f hf
    intro x hx
    rw [hdb2eq]
    exact hdb x hx
  · rw [hdb2eq]
    exact hdb f hf

theorem engage_step_friend_bound (cfg : EngagerConfig) (friends : List FriendProfile)
    (dr ao : Bool) (db : DB) (reel : ReelInput)
    (hinj : ∀ f ∈ friends, ∀ g ∈ friends, f.username = g.username → f = g)
    (hdb : ∀ f ∈ friends,
      db.get_friend_share_count_today f.username ≤ f.max_shares_per_day) :
    ∀ f ∈ friends,
      (engage_step cfg friends dr ao db
          reel).db.get_friend_share_count_today f.username ≤
        f.max_shares_per_day := by
  cases ao with
  | true => exact hdb
  | false =>
      exact process_engagement_friend_bound cfg friends dr reel.oracle db reel.pk
        reel.analysis.humor_score reel.analysis.humor_category
        reel.analysis.suggested_comment reel.code hinj hdb

theorem session_step_friend_bound (cfg : EngagerConfig) (friends : List FriendProfile)
    (dr ao : Bool) (N : ℕ) (s : SessionState) (reel : ReelInput)
    (hinj : ∀ f ∈ friends, ∀ g ∈ friends, f.username = g.username → f = g)
    (hdb : ∀ f ∈ friends,
      s.db.get_friend_share_count_today f.username ≤ f.max_shares_per_day) :
    ∀ f ∈ friends,
      (session_step cfg friends dr ao N s
          reel).db.get_friend_share_count_today f.username ≤
        f.max_shares_per_day := by
  have hpe := engage_step_friend_bound cfg friends dr ao s.db reel hinj hdb
  unfold session_step
  split
  · exact hdb
  · split
    · exact hdb
    · intro f hf
      simpa [DB.get_friend_share_count_today, save_friend_shares] using hpe f hf

theorem run_session_friend_bound (cfg : EngagerConfig) (friends : List FriendProfile)
    (dr ao : Bool) (N : ℕ) (reels : List ReelInput) (s : SessionState)
    (hinj : ∀ f ∈ friends, ∀ g ∈ friends, f.username = g.username → f = g)
    (hdb : ∀ f ∈ friends,
      s.db.get_friend_share_count_today f.username ≤ f.max_shares_per_day) :
    ∀ f ∈ friends,
      (reels.foldl (session_step cfg friends dr ao N)
          s).db.get_friend_share_count_today f.username ≤
        f.max_shares_per_day := by
  induction reels generalizing s with
  | nil => exact hdb
  | cons reel rest ih =>
      exact ih _ (session_step_friend_bound cfg friends dr ao N s reel hinj hdb)

/-! ## Session-step branch lemmas -/

theorem session_step_of_analyzed (cfg : EngagerConfig) (friends : List FriendProfile)
    (dr ao : Bool) (N : ℕ) (s : SessionState) (reel : ReelInput)
    (h : s.db.reel_already_analyzed reel.pk = true) :
    session_step cfg friends dr ao N s reel = s := by
  simp [session_step, h]

theorem session_step_of_download_failed (cfg : EngagerConfig)
    (friends : List FriendProfile) (dr ao : Bool) (N : ℕ) (s : SessionState)
    (reel : ReelInput) (h1 : s.db.reel_already_analyzed reel.pk = false)
    (h2 : reel.downloadOk = false) :
    session_step cfg friends dr ao N s reel = s := by
  simp [session_step, h1, h2]

theorem engage_step_reels (cfg : EngagerConfig) (friends : List FriendProfile)
    (dr ao : Bool) (db : DB) (reel : ReelInput) :
    (engage_step cfg friends dr ao db reel).db.reels_analyzed = db.reels_analyzed := by
  cases ao with
  | true => rfl
  | false =>
      obtain ⟨A, B, C, -, h, -⟩ :=
        process_engagement_decomp cfg friends dr reel.oracle db reel.pk
          reel.analysis.humor_score reel.analysis.humor_category
          reel.analysis.suggested_comment reel.code
      exact h

theorem analyzed_congr (db1 db2 : DB) (id : String)
    (h : db1.reels_analyzed = db2.reels_analyzed) :
    db1.reel_already_analyzed id = db2.reel_already_analyzed id := by
  simp [DB.reel_already_analyzed, h]

theorem session_step_invocations (cfg : EngagerConfig) (friends : List FriendProfile)
    (dr ao : Bool) (N : ℕ) (s : SessionState) (reel : ReelInput)
    (h1 : s.db.reel_already_analyzed reel.pk = false) (h2 : reel.downloadOk = true) :
    (session_step cfg friends dr ao N s reel).invocations =
      s.invocations ++ [reel.pk] := by
  simp [session_step, h1, h2]

theorem session_step_analyzed_self (cfg : EngagerConfig) (friends : List FriendProfile)
    (dr ao : Bool) (N : ℕ) (s : SessionState) (reel : ReelInput)
    (h1 : s.db.reel_already_analyzed reel.pk = false) (h2 : reel.downloadOk = true) :
    (session_step cfg friends dr ao N s reel).db.reel_already_analyzed reel.pk = true := by
  simp only [session_step, h1, Bool.false_eq_true, if_false, h2, Bool.not_true]
  exact save_analyzed_self _ _

theorem session_step_analyzed_other (cfg : EngagerConfig) (friends : List FriendProfile)
    (dr ao : Bool) (N : ℕ) (s : SessionState) (reel : ReelInput) (id : String)
    (h1 : s.db.reel_already_analyzed reel.pk = false) (h2 : reel.downloadOk = true)
    (hne : id ≠ reel.pk) :
    (session_step cfg friends dr ao N s reel).db.reel_already_analyzed id =
      s.db.reel_already_analyzed id := by
  simp only [session_step, h1, Bool.false_eq_true, if_false, h2, Bool.not_true]
  rw [save_analyzed_other _ _ id hne]
  exact analyzed_congr _ _ id (engage_step_reels cfg friends dr ao s.db reel)

theorem session_step_upserts_eq (cfg : EngagerConfig) (friends : List FriendProfile)
    (dr ao : Bool) (N : ℕ) (s : SessionState) (reel : ReelInput)
    (h : s.upserts = s.invocations) :
    (session_step cfg friends dr ao N s reel).upserts =
      (session_step cfg friends dr ao N s reel).invocations := by
  unfold session_step
  split
  · exact h
  · split
    · exact h
    · simp [h]

/-! ## Dedup invariant (no double analysis) -/

theorem session_step_dedup (cfg : EngagerConfig) (friends : List FriendProfile)
    (dr ao : Bool) (N : ℕ) (s : SessionState) (reel : ReelInput) (id : String)
    (h1 : s.invocations.count id ≤ 1)
    (h2 : 0 < s.invocations.count id → s.db.reel_already_analyzed id = true) :
    (session_step cfg friends dr ao N s reel).invocations.count id ≤ 1 ∧
      (0 < (session_step cfg friends dr ao N s reel).invocations.count id →
        (session_step cfg friends dr ao N s reel).db.reel_already_analyzed id = true) := by
  by_cases ha : s.db.reel_already_analyzed reel.pk = true
  · rw [session_step_of_analyzed cfg friends dr ao N s reel ha]
    exact ⟨h1, h2⟩
  · have ha' : s.db.reel_already_analyzed reel.pk = false := Bool.eq_false_iff.mpr ha
    by_cases hd : reel.downloadOk = true
    · rw [session_step_invocations cfg friends dr ao N s reel ha' hd]
      by_cases hid : id = reel.pk
      · have hzero : s.invocations.count id = 0 := by
          by_contra hpos
          exact ha (hid ▸ h2 (Nat.pos_of_ne_zero hpos))
        constructor
        · rw [List.count_append, hzero, hid]
          simp
        · intro _
          exact hid ▸ session_step_analyzed_self cfg friends dr ao N s reel ha' hd
      · have hcnt : (s.invocations ++ [reel.pk]).count id = s.invocations.count id := by
          rw [List.count_append]
          simp [hid]
        rw [hcnt]
        refine ⟨h1, fun hpos => ?_⟩
        rw [session_step_analyzed_other cfg friends dr ao N s reel id ha' hd hid]
        exact h2 hpos
    · have hd' : reel.downloadOk = false := Bool.eq_false_iff.mpr hd
      rw [session_step_of_download_failed cfg friends dr ao N s reel ha' hd']
      exact ⟨h1, h2⟩

theorem run_session_dedup (cfg : EngagerConfig) (friends : List FriendProfile)
    (dr ao : Bool) (N : ℕ) (reels : List ReelInput) (s : SessionState) (id : String)
    (h1 : s.invocations.count id ≤ 1)
    (h2 : 0 < s.invocations.count id → s.db.reel_already_analyzed id = true) :
    (reels.foldl (session_step cfg friends dr ao N) s).invocations.count id ≤ 1 := by
  induction reels generalizing s with
  | nil => exact h1
  | cons reel rest ih =>
      obtain ⟨h1', h2'⟩ := session_step_dedup cfg friends dr ao N s reel id h1 h2
      exact ih _ h1' h2'

theorem run_session_upserts_eq (cfg : EngagerConfig) (friends : List FriendProfile)
    (dr ao : Bool) (N : ℕ) (reels : List ReelInput) (s : SessionState)
    (h : s.upserts = s.invocations) :
    (reels.foldl (session_step cfg friends dr ao N) s).upserts =
      (reels.foldl (session_step cfg friends dr ao N) s).invocations := by
  induction reels generalizing s with
  | nil => exact h
  | cons reel rest ih =>
      exact ih _ (session_step_upserts_eq cfg friends dr ao N s reel h)

/-! ## Cooldown invariant -/

theorem session_step_counters (cfg : EngagerConfig) (friends : List FriendProfile)
    (dr ao : Bool) (N : ℕ) (s : SessionState) (reel : ReelInput)
    (h1 : s.db.reel_already_analyzed reel.pk = false) (h2 : reel.downloadOk = true) :
    ∃ a : ℕ,
      (session_step cfg friends dr ao N s reel).totalActions = s.totalActions + a ∧
      (session_step cfg friends dr ao N s reel).actions_since_cooldown =
        (if N ≤ s.actions_since_cooldown + a then 0
          else s.actions_since_cooldown + a) ∧
      (session_step cfg friends dr ao N s reel).cooldowns =
        (if N ≤ s.actions_since_cooldown + a then s.cooldowns + 1
          else s.cooldowns) := by
  refine ⟨(engage_step cfg friends dr ao s.db reel).actions.length, ?_⟩
  have hcounter :
      (if ao = true then s.actions_since_cooldown
        else if (engage_step cfg friends dr ao s.db reel).actions.isEmpty = true then
          s.actions_since_cooldown
        else s.actions_since_cooldown +
          (engage_step cfg friends dr ao s.db reel).actions.length) =
      s.actions_since_cooldown +
        (engage_step cfg friends dr ao s.db reel).actions.length := by
    by_cases hao : ao = true
    · subst hao
      have hnil : (engage_step cfg friends dr true s.db reel).actions = [] := rfl
      simp [hnil]
    · by_cases he : (engage_step cfg friends dr ao s.db reel).actions.isEmpty = true
      · have hnil : (engage_step cfg friends dr ao s.db reel).actions = [] :=
          List.isEmpty_iff.mp he
        simp [hao, hnil]
      · simp [hao, he]
  refine ⟨?_, ?_, ?_⟩ <;>
    simp only [session_step, h1, Bool.false_eq_true, if_false, h2, Bool.not_true,
      hcounter]

theorem session_step_cooldown (cfg : EngagerConfig) (friends : List FriendProfile)
    (dr ao : Bool) (N : ℕ) (s : SessionState) (reel : ReelInput)
    (h1 : N * s.cooldowns + s.actions_since_cooldown ≤ s.totalActions)
    (h2 : 0 < N → s.actions_since_cooldown < N) :
    N * (session_step cfg friends dr ao N s reel).cooldowns +
        (session_step cfg friends dr ao N s reel).actions_since_cooldown ≤
      (session_step cfg friends dr ao N s reel).totalActions ∧
    (0 < N →
      (session_step cfg friends dr ao N s reel).actions_since_cooldown < N) := by
  by_cases ha : s.db.reel_already_analyzed reel.pk = true
  · rw [session_step_of_analyzed cfg friends dr ao N s reel ha]
    exact ⟨h1, h2⟩
  · have ha' : s.db.reel_already_analyzed reel.pk = false := Bool.eq_false_iff.mpr ha
    by_cases hd : reel.downloadOk = true
    · obtain ⟨a, ht, hact, hcd⟩ :=
        session_step_counters cfg friends dr ao N s reel ha' hd
      rw [ht, hact, hcd]
      by_cases hfire : N ≤ s.actions_since_cooldown + a
      · rw [if_pos hfire, if_pos hfire]
        have hexp : N * (s.cooldowns + 1) = N * s.cooldowns + N := by ring
        exact ⟨by omega, fun hN => hN⟩
      · rw [if_neg hfire, if_neg hfire]
        exact ⟨by omega, fun _ => by omega⟩
    · have hd' : reel.downloadOk = false := Bool.eq_false_iff.mpr hd
      rw [session_step_of_download_failed cfg friends dr ao N s reel ha' hd']
      exact ⟨h1, h2⟩

theorem run_session_cooldown (cfg : EngagerConfig) (friends : List FriendProfile)
    (dr ao : Bool) (N : ℕ) (reels : List ReelInput) (s : SessionState)
    (h1 : N * s.cooldowns + s.actions_since_cooldown ≤ s.totalActions)
    (h2 : 0 < N → s.actions_since_cooldown < N) :
    N * (reels.foldl (session_step cfg friends dr ao N) s).cooldowns +
        (reels.foldl (session_step cfg friends dr ao N) s).actions_since_cooldown ≤
      (reels.foldl (session_step cfg friends dr ao N) s).totalActions ∧
    (0 < N →
      (reels.foldl (session_step cfg friends dr ao N) s).actions_since_cooldown < N) := by
  induction reels generalizing s with
  | nil => exact ⟨h1, h2⟩
  | cons reel rest ih =>
      obtain ⟨h1', h2'⟩ := session_step_cooldown cfg friends dr ao N s reel h1 h2
      exact ih _ h1' h2'

/-! ## Dry-run parity -/

theorem do_like_parity (r : CallResult) (db : DB) (id : String) :
    (do_like true r db id).1 = (do_like false (.ok true) db id).1 ∧
    (do_like true r db id).2.1 = (do_like false (.ok true) db id).2.1 ∧
    (do_like true r db id).2.2 = [] :=
  ⟨rfl, rfl, rfl⟩

theorem do_comment_parity (r : CallResult) (db : DB) (id text : String) :
    (do_comment true r db id text).1 = (do_comment false (.ok true) db id text).1 ∧
    (do_comment true r db id text).2.1 = (do_comment false (.ok true) db id text).2.1 ∧
    (do_comment true r db id text).2.2 = [] :=
  ⟨rfl, rfl, rfl⟩

theorem do_share_parity (r : CallResult) (db : DB) (id : String)
    (f : FriendProfile) (code : String) :
    (do_share true r db id f code).1 = (do_share false (.ok true) db id f code).1 ∧
    (do_share true r db id f code).2.1 = (do_share false (.ok true) db id f code).2.1 ∧
    (do_share true r db id f code).2.2 = [] :=
  ⟨rfl, rfl, rfl⟩

theorem share_scan_parity (o : Oracle) (id code : String) :
    ∀ (L : List FriendProfile) (db : DB),
      (share_scan true o id code L db).1 = (share_scan false oracleOk id code L db).1 ∧
      (share_scan true o id code L db).2.1 =
        (share_scan false oracleOk id code L db).2.1 ∧
      (share_scan true o id code L db).2.2 = [] := by
  intro L
  induction L with
  | nil => exact fun db => ⟨rfl, rfl, rfl⟩
  | cons f rest ih =>
      intro db
      by_cases hc : can_share_to_friend db f = true
      · have hp1 : (do_share true (o.shareRes f.username) db id f code).1 = true := rfl
        have hp2 : (do_share false (oracleOk.shareRes f.username) db id f code).1 = true :=
          rfl
        have hdbeq : (do_share true (o.shareRes f.username) db id f code).2.1 =
            (do_share false (oracleOk.shareRes f.username) db id f code).2.1 := rfl
        have hcalls0 : (do_share true (o.shareRes f.username) db id f code).2.2 = [] := rfl
        refine ⟨?_, ?_, ?_⟩ <;> simp [share_scan, hc, hp1, hp2, hdbeq, hcalls0]
      · have hc' : can_share_to_friend db f = false := Bool.eq_false_iff.mpr hc
        obtain ⟨ha, hb, hcalls⟩ := ih db
        refine ⟨?_, ?_, ?_⟩ <;> simp [share_scan, hc', ha, hb, hcalls]

theorem like_phase_parity (cfg : EngagerConfig) (o : Oracle) (db : DB)
    (id : String) (score : ℚ) :
    (like_phase cfg true o db id score).1 = (like_phase cfg false oracleOk db id score).1 ∧
    (like_phase cfg true o db id score).2.1 =
      (like_phase cfg false oracleOk db id score).2.1 ∧
    (like_phase cfg true o db id score).2.2 = [] := by
  unfold like_phase
  by_cases h1 : cfg.humor_threshold ≤ score
  · by_cases h2 : can_like cfg db = true
    · obtain ⟨ha, hb, hcalls⟩ := do_like_parity o.likeRes db id
      refine ⟨?_, ?_, ?_⟩ <;> simp [h1, h2, ha, hb, hcalls, oracleOk]
    · have h2' : can_like cfg db = false := Bool.eq_false_iff.mpr h2
      refine ⟨?_, ?_, ?_⟩ <;> simp [h1, h2']
  · refine ⟨?_, ?_, ?_⟩ <;> simp [h1]

theorem comment_phase_parity (cfg : EngagerConfig) (o : Oracle) (db : DB)
    (id : String) (score : ℚ) (sugg : String) :
    (comment_phase cfg true o db id score sugg).1 =
      (comment_phase cfg false oracleOk db id score sugg).1 ∧
    (comment_phase cfg true o db id score sugg).2.1 =
      (comment_phase cfg false oracleOk db id score sugg).2.1 ∧
    (comment_phase cfg true o db id score sugg).2.2 = [] := by
  unfold comment_phase
  by_cases h1 : cfg.comment_threshold ≤ score ∧ sugg ≠ ""
  · by_cases h2 : can_comment cfg db = true
    · obtain ⟨ha, hb, hcalls⟩ := do_comment_parity o.commentRes db id sugg
      refine ⟨?_, ?_, ?_⟩ <;> simp [h1, h2, ha, hb, hcalls, oracleOk]
    · have h2' : can_comment cfg db = false := Bool.eq_false_iff.mpr h2
      refine ⟨?_, ?_, ?_⟩ <;> simp [h1, h2']
  · refine ⟨?_, ?_, ?_⟩ <;> simp [h1]

theorem share_phase_parity (cfg : EngagerConfig) (friends : List FriendProfile)
    (o : Oracle) (db : DB) (id cat code : String) :
    (share_phase cfg friends true o db id cat code).1 =
      (share_phase cfg friends false oracleOk db id cat code).1 ∧
    (share_phase cfg friends true o db id cat code).2.1 =
      (share_phase cfg friends false oracleOk db id cat code).2.1 ∧
    (share_phase cfg friends true o db id cat code).2.2 = [] := by
  unfold share_phase
  by_cases h : can_share cfg db = true
  · obtain ⟨ha, hb, hcalls⟩ :=
      share_scan_parity o id code (find_matching_friends friends cat) db
    refine ⟨?_, ?_, ?_⟩ <;> simp [h, ha, hb, hcalls]
  · have h' : can_share cfg db = false := Bool.eq_false_iff.mpr h
    refine ⟨?_, ?_, ?_⟩ <;> simp [h']

theorem process_engagement_parity (cfg : EngagerConfig) (friends : List FriendProfile)
    (o : Oracle) (db : DB) (id : String) (score : ℚ) (cat sugg code : String) :
    (process_engagement cfg friends true o db id score cat sugg code).actions =
      (process_engagement cfg friends false oracleOk db id score cat sugg code).actions ∧
    (process_engagement cfg friends true o db id score cat sugg code).db =
      (process_engagement cfg friends false oracleOk db id score cat sugg code).db ∧
    (process_engagement cfg friends true o db id score cat sugg code).calls = [] := by
  obtain ⟨ha1, hb1, hc1⟩ := like_phase_parity cfg o db id score
  obtain ⟨ha2, hb2, hc2⟩ :=
    comment_phase_parity cfg o (like_phase cfg true o db id score).2.1 id score sugg
  obtain ⟨ha3, hb3, hc3⟩ :=
    share_phase_parity cfg friends o
      (comment_phase cfg true o (like_phase cfg true o db id score).2.1 id score
        sugg).2.1 id cat code
  have ha2' :
      (comment_phase cfg true o (like_phase cfg true o db id score).2.1 id score sugg).1 =
      (comment_phase cfg false oracleOk (like_phase cfg false oracleOk db id score).2.1
        id score sugg).1 := by
    rw [ha2, hb1]
  have hb2' :
      (comment_phase cfg true o (like_phase cfg true o db id score).2.1 id score
        sugg).2.1 =
      (comment_phase cfg false oracleOk (like_phase cfg false oracleOk db id score).2.1
        id score sugg).2.1 := by
    rw [hb2, hb1]
  have ha3' :
      (share_phase cfg friends true o
        (comment_phase cfg true o (like_phase cfg true o db id score).2.1 id score
          sugg).2.1 id cat code).1 =
      (share_phase cfg friends false oracleOk
        (comment_phase cfg false oracleOk (like_phase cfg false oracleOk db id
          score).2.1 id score sugg).2.1 id cat code).1 := by
    rw [ha3, hb2']
  have hb3' :
      (share_phase cfg friends true o
        (comment_phase cfg true o (like_phase cfg true o db id score).2.1 id score
          sugg).2.1 id cat code).2.1 =
      (share_phase cfg friends false oracleOk
        (comment_phase cfg false oracleOk (like_phase cfg false oracleOk db id
          score).2.1 id score sugg).2.1 id cat code).2.1 := by
    rw [hb3, hb2']
  refine ⟨?_, ?_, ?_⟩
  · show (like_phase cfg true o db id score).1 ++
        (comment_phase cfg true o (like_phase cfg true o db id score).2.1 id score
          sugg).1 ++
        (share_phase cfg friends true o
          (comment_phase cfg true o (like_phase cfg true o db id score).2.1 id score
            sugg).2.1 id cat code).1 =
      (like_phase cfg false oracleOk db id score).1 ++
        (comment_phase cfg false oracleOk (like_phase cfg false oracleOk db id
          score).2.1 id score sugg).1 ++
        (share_phase cfg friends false oracleOk
          (comment_phase cfg false oracleOk (like_phase cfg false oracleOk db id
            score).2.1 id score sugg).2.1 id cat code).1
    rw [ha1, ha2', ha3']
  · show (share_phase cfg friends true o
        (comment_phase cfg true o (like_phase cfg true o db id score).2.1 id score
          sugg).2.1 id cat code).2.1 =
      (share_phase cfg friends false oracleOk
        (comment_phase cfg false oracleOk (like_phase cfg false oracleOk db id
          score).2.1 id score sugg).2.1 id cat code).2.1
    exact hb3'
  · show (like_phase cfg true o db id score).2.2 ++
        (comment_phase cfg true o (like_phase cfg true o db id score).2.1 id score
          sugg).2.2 ++
        (share_phase cfg friends true o
          (comment_phase cfg true o (like_phase cfg true o db id score).2.1 id score
            sugg).2.1 id cat code).2.2 = []
    rw [hc1, hc2, hc3]
    simp

theorem session_step_parity (cfg : EngagerConfig) (friends : List FriendProfile)
    (N : ℕ) (s t : SessionState) (reel : ReelInput)
    (h : stripCalls s = stripCalls t) :
    stripCalls (session_step cfg friends true false N s reel) =
      stripCalls (session_step cfg friends false false N t
        { reel with oracle := oracleOk }) ∧
    (session_step cfg friends true false N s reel).calls = s.calls := by
  have hdb : s.db = t.db := by
    have := congrArg SessionState.db h; exact this
  have hact : s.actions_since_cooldown = t.actions_since_cooldown := by
    have := congrArg SessionState.actions_since_cooldown h; exact this
  have hcd : s.cooldowns = t.cooldowns := by
    have := congrArg SessionState.cooldowns h; exact this
  have hinv : s.invocations = t.invocations := by
    have := congrArg SessionState.invocations h; exact this
  have hups : s.upserts = t.upserts := by
    have := congrArg SessionState.upserts h; exact this
  have htot : s.totalActions = t.totalActions := by
    have := congrArg SessionState.totalActions h; exact this
  obtain ⟨hpa, hpdb, hpcalls⟩ :=
    process_engagement_parity cfg friends reel.oracle s.db reel.pk
      reel.analysis.humor_score reel.analysis.humor_category
      reel.analysis.suggested_comment reel.code
  have hea : (engage_step cfg friends true false s.db reel).actions =
      (engage_step cfg friends false false t.db
        { reel with oracle := oracleOk }).actions := by
    show (process_engagement cfg friends true reel.oracle s.db reel.pk
        reel.analysis.humor_score reel.analysis.humor_category
        reel.analysis.suggested_comment reel.code).actions =
      (process_engagement cfg friends false oracleOk t.db reel.pk
        reel.analysis.humor_score reel.analysis.humor_category
        reel.analysis.suggested_comment reel.code).actions
    rw [← hdb]
    exact hpa
  have hedb : (engage_step cfg friends true false s.db reel).db =
      (engage_step cfg friends false false t.db
        { reel with oracle := oracleOk }).db := by
    show (process_engagement cfg friends true reel.oracle s.db reel.pk
        reel.analysis.humor_score reel.analysis.humor_category
        reel.analysis.suggested_comment reel.code).db =
      (process_engagement cfg friends false oracleOk t.db reel.pk
        reel.analysis.humor_score reel.analysis.humor_category
        reel.analysis.suggested_comment reel.code).db
    rw [← hdb]
    exact hpdb
  have hecalls : (engage_step cfg friends true false s.db reel).calls = [] := hpcalls
  by_cases ha : s.db.reel_already_analyzed reel.pk = true
  · have hb : t.db.reel_already_analyzed reel.pk = true := hdb ▸ ha
    constructor
    · rw [session_step_of_analyzed cfg friends true false N s reel ha,
        session_step_of_analyzed cfg friends false false N t
          { reel with oracle := oracleOk } hb]
      exact h
    · rw [session_step_of_analyzed cfg friends true false N s reel ha]
  · have ha' : s.db.reel_already_analyzed reel.pk = false := Bool.eq_false_iff.mpr ha
    have hb' : t.db.reel_already_analyzed reel.pk = false := hdb ▸ ha'
    by_cases hdl : reel.downloadOk = true
    · constructor
      · simp only [session_step, ha', hb', Bool.false_eq_true, if_false, hdl,
          Bool.not_true]
        simp [stripCalls, SessionState.mk.injEq, hdl, hea, hedb, hact, hcd, hinv,
          hups, htot]
      · simp only [session_step, ha', Bool.false_eq_true, if_false, hdl, Bool.not_true]
        simp [hecalls]
    · have hdl' : reel.downloadOk = false := Bool.eq_false_iff.mpr hdl
      constructor
      · rw [session_step_of_download_failed cfg friends true false N s reel ha' hdl',
          session_step_of_download_failed cfg friends false false N t
            { reel with oracle := oracleOk } hb' hdl']
        exact h
      · rw [session_step_of_download_failed cfg friends true false N s reel ha' hdl']

theorem run_session_parity_aux (cfg : EngagerConfig) (friends : List FriendProfile)
    (N : ℕ) :
    ∀ (reels : List ReelInput) (s t : SessionState), stripCalls s = stripCalls t →
      stripCalls (reels.foldl (session_step cfg friends true false N) s) =
        stripCalls ((reels.map (fun i => { i with oracle := oracleOk })).foldl
          (session_step cfg friends false false N) t) ∧
      (reels.foldl (session_step cfg friends true false N) s).calls = s.calls := by
  intro reels
  induction reels with
  | nil => exact fun s t h => ⟨h, rfl⟩
  | cons reel rest ih =>
      intro s t h
      obtain ⟨h', hc⟩ := session_step_parity cfg friends N s t reel h
      simp only [List.foldl_cons, List.map_cons]
      obtain ⟨ih1, ih2⟩ := ih _ _ h'
      exact ⟨ih1, ih2.trans hc⟩

/-! ## Ordering of the appended records -/

theorem filter_type_self (l : List EngagementRecord) (ty : String)
    (h : ∀ r ∈ l, r.action_type = ty) :
    l.filter (fun r => r.action_type == ty) = l := by
  rw [List.filter_eq_self]
  intro r hr
  simp [h r hr]

theorem filter_type_nil (l : List EngagementRecord) (ty ty' : String)
    (h : ∀ r ∈ l, r.action_type = ty) (hne : ty ≠ ty') :
    l.filter (fun r => r.action_type == ty') = [] := by
  rw [List.filter_eq_nil_iff]
  intro r hr
  simp [h r hr, hne]

theorem ordered_decomp (A B C : List EngagementRecord)
    (hA : ∀ r ∈ A, r.action_type = "like") (hB : ∀ r ∈ B, r.action_type = "comment")
    (hC : ∀ r ∈ C, r.action_type = "share") :
    A ++ B ++ C =
      (A ++ B ++ C).filter (fun r => r.action_type == "like") ++
      ((A ++ B ++ C).filter (fun r => r.action_type == "comment") ++
        (A ++ B ++ C).filter (fun r => r.action_type == "share")) := by
  rw [List.filter_append, List.filter_append, List.filter_append, List.filter_append,
    List.filter_append, List.filter_append]
  rw [filter_type_self A "like" hA, filter_type_self B "comment" hB,
    filter_type_self C "share" hC,
    filter_type_nil B "comment" "like" hB (by decide),
    filter_type_nil C "share" "like" hC (by decide),
    filter_type_nil A "like" "comment" hA (by decide),
    filter_type_nil C "share" "comment" hC (by decide),
    filter_type_nil A "like" "share" hA (by decide),
    filter_type_nil B "comment" "share" hB (by decide)]
  simp

theorem newRecords_of_log (db : DB) (r : EngageResult) (X : List EngagementRecord)
    (hlog : r.db.engagement_log = db.engagement_log ++ X) :
    newRecords db r = X := by
  rw [newRecords, hlog, List.drop_left]

/-! ## Claim theorems -/

/-- Claim C1, counterexample: in a live pass where the share to the first
matching recipient (alice) fails and the share to the second (bob) succeeds,
TWO share records referencing the item are written (a failure for alice and
a success for bob), and the emitted share action is for bob — not for the
first recipient whose interests match and whose cap allows. This refutes
"at most one share EngagementRecord (success or failure) per item per pass"
and "exactly one share action for the first matching recipient". -/
theorem C1_counterexample :
    (c1pass.db.engagement_log.filter (fun r => r.action_type == "share")).length = 2 ∧
    c1pass.db.engagement_log.all (fun r => r.reel_id == "reel1") = true ∧
    c1pass.actions = ["share:bob"] := by
  refine ⟨?_, ?_, ?_⟩ <;> decide

/-- Claim C1, amended: within one decision pass at most one SUCCESSFUL share
record referencing the item is written (the loop breaks at the first
successful share), and every record the pass writes references the item; a
failed or erroring attempt, however, writes a failure record and the scan
continues with the next matching recipient, so several share failure records
can be written for one item. -/
theorem C1_at_most_one_successful_share (cfg : EngagerConfig)
    (friends : List FriendProfile) (dr : Bool) (o : Oracle) (db : DB)
    (id : String) (score : ℚ) (cat sugg code : String) :
    (∀ rec ∈ newRecords db
        (process_engagement cfg friends dr o db id score cat sugg code),
      rec.reel_id = id) ∧
    successCount
        (newRecords db (process_engagement cfg friends dr o db id score cat sugg code))
        "share" ≤ 1 := by
  obtain ⟨A, B, C, hlog, -, hA, hB, hC, -, -, hCs, -, -, -⟩ :=
    process_engagement_decomp cfg friends dr o db id score cat sugg code
  have hnew : newRecords db
      (process_engagement cfg friends dr o db id score cat sugg code) =
      A ++ B ++ C :=
    newRecords_of_log db _ _ hlog
  constructor
  · intro rec hrec
    rw [hnew] at hrec
    rcases List.mem_append.mp hrec with hrec' | hrec'
    · rcases List.mem_append.mp hrec' with h | h
      · exact (hA rec h).2
      · exact (hB rec h).2
    · exact (hC rec hrec').2
  · rw [hnew, successCount_append, successCount_append,
      successCount_eq_zero A "like" "share" (fun r hr => (hA r hr).1) (by decide),
      successCount_eq_zero B "comment" "share" (fun r hr => (hB r hr).1) (by decide)]
    simpa using hCs

/-- Claim C2: starting from a store whose successful like/comment/share
counts for the day are within the configured daily caps, every session run
keeps them within the caps: an action is attempted only while the successful
count of its kind is strictly below its cap, failed attempts are not counted,
and each pass adds at most one success per kind. -/
theorem C2_quota_ceiling (cfg : EngagerConfig) (friends : List FriendProfile)
    (dr ao : Bool) (N : ℕ) (db0 : DB) (reels : List ReelInput)
    (hl : db0.get_daily_engagement_count "like" ≤ cfg.max_likes_per_day)
    (hc : db0.get_daily_engagement_count "comment" ≤ cfg.max_comments_per_day)
    (hs : db0.get_daily_engagement_count "share" ≤ cfg.max_shares_per_day) :
    (run_session cfg friends dr ao N db0 reels).db.get_daily_engagement_count
        "like" ≤ cfg.max_likes_per_day ∧
    (run_session cfg friends dr ao N db0 reels).db.get_daily_engagement_count
        "comment" ≤ cfg.max_comments_per_day ∧
    (run_session cfg friends dr ao N db0 reels).db.get_daily_engagement_count
        "share" ≤ cfg.max_shares_per_day := by
  refine run_session_caps cfg friends dr ao N reels
    { db := sync_friends_to_db db0 friends } ?_ ?_ ?_
  · show successCount (sync_friends_to_db db0 friends).engagement_log "like" ≤ _
    rw [sync_engagement_log]
    exact hl
  · show successCount (sync_friends_to_db db0 friends).engagement_log "comment" ≤ _
    rw [sync_engagement_log]
    exact hc
  · show successCount (sync_friends_to_db db0 friends).engagement_log "share" ≤ _
    rw [sync_engagement_log]
    exact hs

/-- Claim C2, witness at a concrete dry-run session from an empty store. -/
theorem C2_quota_ceiling_witness :
    (run_session cfgEx [alice] true false 2 {} [reelHot1, reelHot2]).db.get_daily_engagement_count
        "like" ≤ cfgEx.max_likes_per_day :=
  (C2_quota_ceiling cfgEx [alice] true false 2 {} [reelHot1, reelHot2]
    (by decide) (by decide) (by decide)).1

/-- Claim C3: when the recipient directory has no two entries with the same
username, and every per-recipient counter starts within its recipient's cap,
a session keeps every (recipient, day) counter within that recipient's
configured max-shares-per-day; moreover (second conjunct) a failed or
erroring share attempt never changes the counter table — it is incremented
only on success. -/
theorem C3_per_recipient_ceiling (cfg : EngagerConfig)
    (friends : List FriendProfile) (dr ao : Bool) (N : ℕ) (db0 : DB)
    (reels : List ReelInput)
    (hinj : ∀ f ∈ friends, ∀ g ∈ friends, f.username = g.username → f = g)
    (h0 : ∀ f ∈ friends,
      db0.get_friend_share_count_today f.username ≤ f.max_shares_per_day) :
    (∀ f ∈ friends,
      (run_session cfg friends dr ao N db0 reels).db.get_friend_share_count_today
          f.username ≤ f.max_shares_per_day) ∧
    (∀ (dr2 : Bool) (res : CallResult) (db : DB) (id : String)
        (f : FriendProfile) (code : String),
      (do_share dr2 res db id f code).1 = false →
        ((do_share dr2 res db id f code).2.1).friend_shares = db.friend_shares) := by
  constructor
  · refine run_session_friend_bound cfg friends dr ao N reels
      { db := sync_friends_to_db db0 friends } hinj ?_
    intro f hf
    exact (sync_share_count_le db0 friends f.username).trans (h0 f hf)
  · exact fun dr2 res db id f code h =>
      do_share_no_incr_on_failure dr2 res db id f code h

/-- Claim C3, witness at a concrete dry-run session from an empty store. -/
theorem C3_per_recipient_ceiling_witness :
    (run_session cfgEx [alice] true false 2 {} [reelHot1, reelHot2]).db.get_friend_share_count_today
        "alice" ≤ 3 :=
  (C3_per_recipient_ceiling cfgEx [alice] true false 2 {} [reelHot1, reelHot2]
    (by decide) (by decide)).1 alice (by decide)

/-- Claim C4: within a single session against one store, the analyzer is
invoked at most once per item identifier and the analysis upsert runs at
most once per identifier — an identifier already present in the store is
skipped before analysis, and analysing an item puts it into the store, so
re-presenting the same identifier never triggers a second analyzer call or
a second upsert. -/
theorem C4_no_double_analysis (cfg : EngagerConfig) (friends : List FriendProfile)
    (dr ao : Bool) (N : ℕ) (db0 : DB) (reels : List ReelInput) (id : String) :
    (run_session cfg friends dr ao N db0 reels).invocations.count id ≤ 1 ∧
    (run_session cfg friends dr ao N db0 reels).upserts.count id ≤ 1 := by
  have hinv := run_session_dedup cfg friends dr ao N reels
    { db := sync_friends_to_db db0 friends } id (by simp) (by simp)
  have hups := run_session_upserts_eq cfg friends dr ao N reels
    { db := sync_friends_to_db db0 friends } rfl
  exact ⟨hinv, by rw [show (run_session cfg friends dr ao N db0 reels).upserts =
    (run_session cfg friends dr ao N db0 reels).invocations from hups]; exact hinv⟩

/-- Claim C5: in one decision pass, a like record (success or failure) is
written exactly when the score reaches the like threshold and the daily like
count is strictly below its cap; a comment record is written exactly when
the score reaches the comment threshold, the suggested text is non-empty,
and the daily comment count is strictly below its cap — conditions on the
starting store only, so the comment branch is independent of whether the
like fired; and the pass's records decompose as its like records, then its
comment records, then its share records, in that order. -/
theorem C5_decision_conditions (cfg : EngagerConfig) (friends : List FriendProfile)
    (dr : Bool) (o : Oracle) (db : DB) (id : String) (score : ℚ)
    (cat sugg code : String) :
    ((∃ rec ∈ newRecords db
        (process_engagement cfg friends dr o db id score cat sugg code),
      rec.action_type = "like") ↔
      (cfg.humor_threshold ≤ score ∧
        db.get_daily_engagement_count "like" < cfg.max_likes_per_day)) ∧
    ((∃ rec ∈ newRecords db
        (process_engagement cfg friends dr o db id score cat sugg code),
      rec.action_type = "comment") ↔
      (cfg.comment_threshold ≤ score ∧ sugg ≠ "" ∧
        db.get_daily_engagement_count "comment" < cfg.max_comments_per_day)) ∧
    newRecords db (process_engagement cfg friends dr o db id score cat sugg code) =
      (newRecords db
        (process_engagement cfg friends dr o db id score cat sugg code)).filter
        (fun r => r.action_type == "like") ++
      ((newRecords db
        (process_engagement cfg friends dr o db id score cat sugg code)).filter
        (fun r => r.action_type == "comment") ++
      (newRecords db
        (process_engagement cfg friends dr o db id score cat sugg code)).filter
        (fun r => r.action_type == "share")) := by
  obtain ⟨A, B, C, hlog, -, hA, hB, hC, -, -, -, hAiff, hBiff, -⟩ :=
    process_engagement_decomp cfg friends dr o db id score cat sugg code
  have hnew : newRecords db
      (process_engagement cfg friends dr o db id score cat sugg code) =
      A ++ B ++ C :=
    newRecords_of_log db _ _ hlog
  have hexA : (∃ rec ∈ A ++ B ++ C, rec.action_type = "like") ↔ A ≠ [] := by
    constructor
    · rintro ⟨rec, hrec, hty⟩
      rcases List.mem_append.mp hrec with hrec' | hrec'
      · rcases List.mem_append.mp hrec' with h | h
        · intro hnil
          rw [hnil] at h
          exact absurd h (List.not_mem_nil rec)
        · exact absurd ((hB rec h).1.symm.trans hty) (by decide)
      · exact absurd ((hC rec hrec').1.symm.trans hty) (by decide)
    · intro hne
      obtain ⟨rec, hrec⟩ := List.exists_mem_of_ne_nil A hne
      exact ⟨rec, List.mem_append.mpr (Or.inl (List.mem_append.mpr (Or.inl hrec))),
        (hA rec hrec).1⟩
  have hexB : (∃ rec ∈ A ++ B ++ C, rec.action_type = "comment") ↔ B ≠ [] := by
    constructor
    · rintro ⟨rec, hrec, hty⟩
      rcases List.mem_append.mp hrec with hrec' | hrec'
      · rcases List.mem_append.mp hrec' with h | h
        · exact absurd ((hA rec h).1.symm.trans hty) (by decide)
        · intro hnil
          rw [hnil] at h
          exact absurd h (List.not_mem_nil rec)
      · exact absurd ((hC rec hrec').1.symm.trans hty) (by decide)
    · intro hne
      obtain ⟨rec, hrec⟩ := List.exists_mem_of_ne_nil B hne
      exact ⟨rec, List.mem_append.mpr (Or.inl (List.mem_append.mpr (Or.inr hrec))),
        (hB rec hrec).1⟩
  have hcanl : (can_like cfg db = true) ↔
      (db.get_daily_engagement_count "like" < cfg.max_likes_per_day) := by
    simp [can_like]
  have hcanc : (can_comment cfg db = true) ↔
      (db.get_daily_engagement_count "comment" < cfg.max_comments_per_day) := by
    simp [can_comment]
  refine ⟨?_, ?_, ?_⟩
  · rw [hnew, hexA, hAiff, hcanl]
  · rw [hnew, hexB, hBiff, hcanc]
  · rw [hnew]
    exact ordered_decomp A B C (fun r hr => (hA r hr).1) (fun r hr => (hB r hr).1)
      (fun r hr => (hC r hr).1)

/-- Claim C6: a dry-run session makes no platform call, and — once the
platform-call trace is erased — its final session state (stored engagement
records, per-recipient counters, analysis rows, action lists, invocation
trace and cooldown bookkeeping) is identical to that of a live session over
the same inputs whose every platform call succeeds. -/
theorem C6_dry_run_parity (cfg : EngagerConfig) (friends : List FriendProfile)
    (N : ℕ) (db0 : DB) (reels : List ReelInput) :
    stripCalls (run_session cfg friends true false N db0 reels) =
      stripCalls (run_session cfg friends false false N db0
        (reels.map (fun i => { i with oracle := oracleOk }))) ∧
    (run_session cfg friends true false N db0 reels).calls = [] := by
  have h := run_session_parity_aux cfg friends N reels
    { db := sync_friends_to_db db0 friends } { db := sync_friends_to_db db0 friends } rfl
  exact ⟨h.1, h.2⟩

/-- Claim C7, counterexample: when the freshly loaded recipient list is
empty, the sync is a no-op — the stale counter row for "bob" survives even
though "bob" is absent from the (empty) list, contradicting the claim that
all rows are deleted in that case. -/
theorem C7_counterexample :
    (sync_friends_to_db c7db []).friend_shares = [("bob", 5)] ∧
    c7db.friend_shares ≠ ([] : List (String × ℕ)) := by
  exact ⟨rfl, by decide⟩

/-- Claim C7, amended: when the freshly loaded recipient list is NON-EMPTY,
a counter row survives the sync exactly when its recipient is in the list
(so every stale row is deleted and no live row is touched); when the list is
empty, the sync leaves the store unchanged. -/
theorem C7_stale_rows_pruned (db : DB) (friends : List FriendProfile)
    (p : String × ℕ) (hne : friends ≠ []) :
    (p ∈ (sync_friends_to_db db friends).friend_shares ↔
      p ∈ db.friend_shares ∧ p.1 ∈ friends.map FriendProfile.username) ∧
    sync_friends_to_db db [] = db := by
  constructor
  · obtain ⟨f, rest, rfl⟩ := List.exists_cons_of_ne_nil hne
    have hcond : ((f :: rest).map FriendProfile.username).isEmpty = false := rfl
    simp [sync_friends_to_db, hcond, List.mem_filter]
  · rfl

/-- Claim C7, witness: with directory [ann], the stale row for bob is gone. -/
theorem C7_stale_rows_pruned_witness :
    ("bob", 5) ∉ (sync_friends_to_db c7db [⟨"ann", [], 3⟩]).friend_shares := by
  intro hmem
  have h := (C7_stale_rows_pruned c7db [⟨"ann", [], 3⟩] ("bob", 5) (by decide)).1.mp hmem
  exact absurd h.2 (by decide)

/-- Claim C8, counterexample: two failing analyses whose result is NOT the
claimed neutral one. First, when frame extraction and transcription succeed
and the OpenAI call then raises, the transcript field keeps the
already-obtained "hello" instead of being empty. Second, when the response
parses but its suggested comment is a non-string JSON value, `.upper()`
raises only after the four field assignments, so the result used carries the
parsed score 9 (not 0), category "funny" (not "unknown"), explanation "e"
(not empty) and a non-empty suggested comment. -/
theorem C8_counterexample :
    isFailureResponse c8env.response = true ∧
    (analyze_reel c8env).transcript = "hello" ∧
    analyze_reel c8env ≠ neutralResult ∧
    isFailureResponse c8envPartial.response = true ∧
    (analyze_reel c8envPartial).humor_score = 9 ∧
    (analyze_reel c8envPartial).humor_category = "funny" ∧
    (analyze_reel c8envPartial).suggested_comment = "7" := by
  refine ⟨rfl, rfl, ?_, rfl, ?_, ?_, ?_⟩ <;> decide

/-- Claim C8, amended: when analysis fails BEFORE any parsed field is
assigned — the analyzer call errors, no JSON object is found, JSON decoding
fails, or the score coercion raises — the result used has score 0, category
"unknown", empty explanation and empty suggested comment, and its transcript
is whatever transcription produced before the failure (empty when no frames
were extracted). When the failure instead occurs at the suggested-comment
case folding (a parsed non-string suggested comment), the already-assigned
parsed score, category, explanation and raw suggested value are kept. In
either case the item is still persisted by the session with the returned
result, so it is recognised as analyzed and never retried. -/
theorem C8_neutral_on_failure (env : AnalyzeEnv) :
    (failsBeforeAssignment env.response = true →
      analyze_reel env =
        { humor_score := 0, humor_category := "unknown", explanation := "",
          suggested_comment := "",
          transcript := if env.framesOk then env.transcript else "" }) ∧
    (∀ (q : ℚ) (cat expl v : String),
      env.response = .parsed (some q) cat expl (.nonString v) →
      env.framesOk = true →
      analyze_reel env =
        { humor_score := q, humor_category := cat, explanation := expl,
          suggested_comment := v, transcript := env.transcript }) ∧
    ∀ (cfg : EngagerConfig) (friends : List FriendProfile) (dr ao : Bool) (N : ℕ)
      (db0 : DB) (reel : ReelInput),
      reel.downloadOk = true →
      db0.reel_already_analyzed reel.pk = false →
      (run_session cfg friends dr ao N db0 [reel]).db.reel_already_analyzed
        reel.pk = true := by
  refine ⟨?_, ?_, ?_⟩
  · intro hb
    cases hf : env.framesOk with
    | false => simp [analyze_reel, hf, neutralResult]
    | true =>
        cases hr : env.response with
        | apiError m => simp [analyze_reel, hf, hr, neutralResult]
        | noJson => simp [analyze_reel, hf, hr, neutralResult]
        | badJson m => simp [analyze_reel, hf, hr, neutralResult]
        | parsed score cat expl sugg =>
            cases score with
            | none => simp [analyze_reel, hf, hr, neutralResult]
            | some q =>
                rw [hr] at hb
                exact absurd hb (by simp [failsBeforeAssignment])
  · intro q cat expl v hr hf
    simp [analyze_reel, hf, hr, SuggestedValue.stored, neutralResult]
  · intro cfg friends dr ao N db0 reel hdl h0
    have hinit : ({ db := sync_friends_to_db db0 friends } :
        SessionState).db.reel_already_analyzed reel.pk = false := by
      rw [analyzed_congr (sync_friends_to_db db0 friends) db0 reel.pk
        (sync_reels_analyzed db0 friends)]
      exact h0
    exact session_step_analyzed_self cfg friends dr ao N _ reel hinit hdl

/-- Claim C8, witness: the amended statement evaluated at the two concrete
failing environments — the call-raises case keeps the transcript with
neutral analysis fields, and the non-string-comment case keeps the parsed
fields. -/
theorem C8_neutral_on_failure_witness :
    analyze_reel c8env =
      { humor_score := 0, humor_category := "unknown", explanation := "",
        suggested_comment := "", transcript := "hello" } ∧
    analyze_reel c8envPartial =
      { humor_score := 9, humor_category := "funny", explanation := "e",
        suggested_comment := "7", transcript := "" } := by
  constructor
  · have h := (C8_neutral_on_failure c8env).1 rfl
    simpa [c8env] using h
  · exact (C8_neutral_on_failure c8envPartial).2.1 9 "funny" "e" "7" rfl rfl

/-- Claim C9, counterexample: with cooldown trigger N = 2 and two items each
contributing three successful actions at once, the session pauses twice
while accruing six successful actions — not the three pauses that "exactly
once per every 2 cumulative successful actions" would require. -/
theorem C9_counterexample :
    c9session.cooldowns = 2 ∧ c9session.totalActions = 6 ∧
    c9session.cooldowns ≠ c9session.totalActions / 2 := by
  refine ⟨?_, ?_, ?_⟩ <;> decide

/-- Claim C9, amended: the controller pauses once each time the running
count of successful actions since the last pause reaches AT LEAST the
trigger N (an item's actions are all added before the check, and the
overshoot is discarded by the reset to zero), so between pauses at least N
successful actions occur — N * pauses never exceeds the cumulative number
of successful actions, and after every item the running count is below N. -/
theorem C9_cooldown_bound (cfg : EngagerConfig) (friends : List FriendProfile)
    (dr ao : Bool) (N : ℕ) (db0 : DB) (reels : List ReelInput) (hN : 0 < N) :
    N * (run_session cfg friends dr ao N db0 reels).cooldowns ≤
      (run_session cfg friends dr ao N db0 reels).totalActions ∧
    (run_session cfg friends dr ao N db0 reels).actions_since_cooldown < N := by
  unfold run_session
  have h := run_session_cooldown cfg friends dr ao N reels
    { db := sync_friends_to_db db0 friends } (by simp) (fun _ => hN)
  refine ⟨?_, h.2 hN⟩
  have h1 := h.1
  omega

/-- Claim C9, witness: the amended bound at the concrete two-item session. -/
theorem C9_cooldown_bound_witness :
    2 * c9session.cooldowns ≤ c9session.totalActions ∧
    c9session.actions_since_cooldown < 2 :=
  C9_cooldown_bound cfgEx [alice] true false 2 {} [reelHot1, reelHot2] (by decide)

/-- Claim C10: an analyzer response whose parsed suggested comment
upper-cases to "SKIP" yields an analysis result with an empty suggested
comment, and a decision pass run on that result never writes a comment
record, since the comment branch requires a non-empty suggested text. -/
theorem C10_skip_suppresses_comment (env : AnalyzeEnv) (score : ℚ)
    (cat expl sugg : String)
    (hresp : env.response = .parsed (some score) cat expl (.str sugg))
    (hskip : strUpper sugg = "SKIP") :
    (analyze_reel env).suggested_comment = "" ∧
    ∀ (cfg : EngagerConfig) (friends : List FriendProfile) (dr : Bool)
      (o : Oracle) (db : DB) (id code : String),
      ∀ rec ∈ newRecords db (process_engagement cfg friends dr o db id
        (analyze_reel env).humor_score (analyze_reel env).humor_category
        (analyze_reel env).suggested_comment code),
        rec.action_type ≠ "comment" := by
  have hempty : (analyze_reel env).suggested_comment = "" := by
    cases hf : env.framesOk with
    | false => simp [analyze_reel, hf, neutralResult]
    | true => simp [analyze_reel, hf, hresp, hskip, SuggestedValue.stored]
  refine ⟨hempty, ?_⟩
  intro cfg friends dr o db id code rec hrec
  obtain ⟨A, B, C, hlog, -, hA, hB, hC, -, -, -, -, hBiff, -⟩ :=
    process_engagement_decomp cfg friends dr o db id
      (analyze_reel env).humor_score (analyze_reel env).humor_category
      (analyze_reel env).suggested_comment code
  have hBnil : B = [] := by
    by_contra hBne
    exact (hBiff.mp hBne).2.1 hempty
  rw [newRecords_of_log db _ _ hlog] at hrec
  rcases List.mem_append.mp hrec with hrec' | hrec'
  · rcases List.mem_append.mp hrec' with hm | hm
    · intro hty
      exact absurd ((hA rec hm).1.symm.trans hty) (by decide)
    · rw [hBnil] at hm
      exact absurd hm (List.not_mem_nil rec)
  · intro hty
    exact absurd ((hC rec hrec').1.symm.trans hty) (by decide)

/-- Claim C10, witness: the concrete response "Skip" yields an empty
suggested comment. -/
theorem C10_skip_suppresses_comment_witness :
    (analyze_reel ⟨true, "",
      .parsed (some 9) "funny" "e" (.str "Skip")⟩).suggested_comment = "" :=
  (C10_skip_suppresses_comment ⟨true, "", .parsed (some 9) "funny" "e" (.str "Skip")⟩
    9 "funny" "e" "Skip" rfl (by decide)).1

end InstaReels
